import Mathlib

/-!
Verification of the agentic-songwriter orchestration core.

Shallow embedding of the repository source:
* `src/lib/agent/core/tool.ts` — validated tool contract (`Tool.execute`)
* `src/lib/agent/core/approval-store.ts` — approval request store
* `src/lib/agent/core/state-store.ts` — run-scoped key/value state
* the second `Orchestrator` in `src/unnamed/part_005` (lines 453-1018):
  the control loop with approval gate and progress hook
* `BriefAgent` (embedded in `src/lib/agent/agents/__tests__/melody-agent.test.ts`,
  lines 346-576): the lyrics decision policy and the deterministic creative brief

Modelling conventions:
* JavaScript values are the inductive `Value`; `undefined` and `null` are
  explicit constructors and JS truthiness is `Value.truthy`.
* The state store is a total function `String → Value` (a key that was never
  set reads as `vUndefined`, exactly like `Map.get` on a missing key).
* Thrown JS exceptions are `Except JsErr`; `JsErr.zodError` marks zod
  validation errors (caught and wrapped by `Tool.execute`), `JsErr.jsError`
  everything else.
* Quality scores are stored in tenths (JS `8.5` becomes `85`) so that the
  reflect threshold `quality >= 8.5` is the exact integer test `85 ≤ q`.
* Wall-clock timestamps and random event ids are elided from trace events;
  everything else that affects control flow is kept.
-/

/-- JS runtime value (the subset the orchestration core manipulates). -/
inductive Value where
  | vUndefined : Value
  | vNull : Value
  | vBool : Bool → Value
  | vNum : Nat → Value
  | vStr : String → Value
  | vList : List Value → Value
  | vObj : List (String × Value) → Value

/-- JS truthiness of a value. -/
def Value.truthy : Value → Bool
  | .vUndefined => false
  | .vNull => false
  | .vBool b => b
  | .vNum n => n ≠ 0
  | .vStr s => s ≠ ""
  | .vList _ => true
  | .vObj _ => true

/-- Field access `obj.f` — `undefined` on a missing field or a non-object. -/
def Value.field (v : Value) (f : String) : Value :=
  match v with
  | .vObj fields =>
    match fields.lookup f with
    | some w => w
    | none => .vUndefined
  | _ => .vUndefined

/-- JS object spread update `{...obj, f: w}` (replaces `f` or appends it). -/
def Value.setField (v : Value) (f : String) (w : Value) : Value :=
  match v with
  | .vObj fields =>
    if fields.any (fun p => p.1 == f) then
      .vObj (fields.map (fun p => if p.1 == f then (f, w) else p))
    else
      .vObj (fields ++ [(f, w)])
  | _ => .vObj [(f, w)]

/-- Cast used by the source as `(state.get(k) as number) || 0`. -/
def Value.asNumOr0 : Value → Nat
  | .vNum n => n
  | _ => 0

/-- JS `String.prototype.toLowerCase` (ASCII lowering suffices for the
fixed tables and inputs considered here). -/
def jsToLower (s : String) : String := ⟨s.data.map Char.toLower⟩

/-- JS `String.prototype.trim`: strip leading and trailing whitespace. -/
def jsTrim (s : String) : String :=
  ⟨((s.data.dropWhile Char.isWhitespace).reverse.dropWhile Char.isWhitespace).reverse⟩

/-- A thrown JS exception; zod validation errors are distinguished because
`Tool.execute` catches exactly those and wraps them. -/
inductive JsErr where
  | zodError : String → JsErr
  | jsError : String → JsErr

/-- The `.message` of the thrown error. -/
def JsErr.message : JsErr → String
  | .zodError m => m
  | .jsError m => m

/-- State store (`src/lib/agent/core/state-store.ts`): artifacts map, read
through `get` which yields `undefined` for missing keys. -/
def St : Type := String → Value

/-- StateStore.get. -/
def stGet (s : St) (k : String) : Value := s k

/-- StateStore.set. -/
def stSet (s : St) (k : String) (v : Value) : St :=
  fun k2 => if k2 == k then v else s k2

/-- The empty (freshly constructed) state store. -/
def stEmpty : St := fun _ => .vUndefined

/-! ## Validated tool contract — `src/lib/agent/core/tool.ts` lines 21-39 -/

/-- A tool: id/name, zod input and output schemas (modelled as parse
functions returning the zod error message on failure) and the internal
implementation, which may itself throw. -/
structure ToolSpec where
  id : String
  name : String
  inputSchema : Value → Except String Value
  outputSchema : Value → Except String Value
  executeInternal : Value → Except JsErr Value

namespace ToolSpec

/-- Tool.execute: validate input, run `executeInternal`, validate output;
a `ZodError` thrown anywhere in the try block is wrapped as
`Tool <name> validation error: <message>`, other errors propagate unchanged. -/
def execute (t : ToolSpec) (input : Value) : Except JsErr Value :=
  let body : Except JsErr Value :=
    match t.inputSchema input with
    | .error m => .error (.zodError m)
    | .ok validatedInput =>
      match t.executeInternal validatedInput with
      | .error e => .error e
      | .ok output =>
        match t.outputSchema output with
        | .error m => .error (.zodError m)
        | .ok validatedOutput => .ok validatedOutput
  match body with
  | .error (.zodError m) =>
    .error (.jsError ("Tool " ++ t.name ++ " validation error: " ++ m))
  | r => r

end ToolSpec

/-! ## Approval store — `src/lib/agent/core/approval-store.ts` -/

/-- Approval decision delivered by the external approver. -/
inductive Decision where
  | approve : Decision
  | reject : Decision
  | regenerate : Decision
deriving DecidableEq

/-- The `ApprovalData` record `{decision, feedback?}`. -/
structure ApprovalData where
  decision : Decision
  feedback : Option String
deriving DecidableEq

/-- Update-or-insert on an association list, mirroring JS `Map.set`. -/
def mapSet {α : Type} (l : List (String × α)) (k : String) (v : α) :
    List (String × α) :=
  if l.any (fun p => p.1 == k) then
    l.map (fun p => if p.1 == k then (k, v) else p)
  else
    l ++ [(k, v)]

/-- The approval store: pending promise slots (keyed by request id, with the
creation timestamp) and the side table of delivered decisions. The promise
resolvers themselves are modelled by the emitted `StoreEffect`s. -/
structure ApprovalStore where
  pendingApprovals : List (String × Nat)
  approvalData : List (String × ApprovalData)

/-- Observable effects of a store operation, in program order: map writes and
promise settlements. -/
inductive StoreEffect where
  | dataSet : String → ApprovalData → StoreEffect
  | deletePending : String → StoreEffect
  | promiseResolve : String → ApprovalData → StoreEffect
  | promiseReject : String → String → StoreEffect
deriving DecidableEq

namespace ApprovalStore

/-- The fixed timeout: `5 * 60 * 1000` milliseconds. -/
def TIMEOUT_MS : Nat := 5 * 60 * 1000

/-- resolveApproval (lines 62-89): unknown id → `false`, no effects; pending
id → record the data, delete the pending slot, then resolve the promise
(delete-then-resolve), returning `true`. Feedback is trimmed and empty
feedback becomes `undefined` (`feedback?.trim() || undefined`). -/
def resolveApproval (s : ApprovalStore) (requestId : String)
    (decision : Decision) (feedback : Option String) :
    ApprovalStore × Bool × List StoreEffect :=
  match s.pendingApprovals.lookup requestId with
  | none => (s, false, [])
  | some _ =>
    let fb : Option String :=
      match feedback with
      | none => none
      | some f => let t := f.trim; if t == "" then none else some t
    let d : ApprovalData := ⟨decision, fb⟩
    let s1 : ApprovalStore :=
      { s with approvalData := mapSet s.approvalData requestId d }
    let s2 : ApprovalStore :=
      { s1 with pendingApprovals :=
          s1.pendingApprovals.filter (fun p => !(p.1 == requestId)) }
    (s2, true, [.dataSet requestId d, .deletePending requestId,
                .promiseResolve requestId d])

/-- The `setTimeout` callback installed by createApprovalRequest
(lines 49-55): after TIMEOUT_MS, if the request is still pending, free the
slot and reject the promise. -/
def timeoutCallback (s : ApprovalStore) (requestId : String) :
    ApprovalStore × List StoreEffect :=
  if (s.pendingApprovals.lookup requestId).isSome then
    ({ s with pendingApprovals :=
        s.pendingApprovals.filter (fun p => !(p.1 == requestId)) },
     [.deletePending requestId,
      .promiseReject requestId "Approval request timed out"])
  else
    (s, [])

/-- cleanup (lines 115-123): delete and reject every pending request older
than TIMEOUT_MS. -/
def cleanup (s : ApprovalStore) (now : Nat) : ApprovalStore × List StoreEffect :=
  let isExpired : String × Nat → Bool := fun p => decide (TIMEOUT_MS < now - p.2)
  (({ s with pendingApprovals := s.pendingApprovals.filter (fun p => !(isExpired p)) }),
   (s.pendingApprovals.filter isExpired).flatMap
     (fun p => [.deletePending p.1, .promiseReject p.1 "Approval request expired"]))

/-- createApprovalRequest (lines 24-57): cleanup, defensively drop a
duplicate pending entry, then store the new pending slot. -/
def createApprovalRequest (s : ApprovalStore) (requestId : String) (now : Nat) :
    ApprovalStore × List StoreEffect :=
  let (s1, effs) := cleanup s now
  let s2 : ApprovalStore :=
    if (s1.pendingApprovals.lookup requestId).isSome then
      { s1 with pendingApprovals :=
          s1.pendingApprovals.filter (fun p => !(p.1 == requestId)) }
    else s1
  ({ s2 with pendingApprovals := mapSet s2.pendingApprovals requestId now }, effs)

end ApprovalStore

/-! ## Creative brief — `BriefAgent.createCreativeBriefDeterministically`
(melody-agent.test.ts, embedded BriefAgent source lines 375-458) -/

/-- The CreativeBrief record produced by the deterministic rule-based
mapping (`src/lib/agent/schemas/creative-brief.ts`; the `language` field,
added by the zod default, is handled at the schema-parse step). -/
structure CreativeBrief where
  lyrics : String
  emotion : String
  genre : Option String
  mood : String
  themes : List String
  tempo : Option String
  style : Option String
deriving DecidableEq

namespace BriefAgent

/-- Rule-based mapping from emotion to mood (lines 381-403). -/
def emotionToMood : List (String × String) :=
  [("sad", "melancholic"), ("sadness", "melancholic"),
   ("happy", "upbeat"), ("happiness", "upbeat"), ("joy", "upbeat"),
   ("joyful", "upbeat"),
   ("angry", "intense"), ("anger", "intense"), ("rage", "intense"),
   ("love", "romantic"), ("loving", "romantic"), ("romantic", "romantic"),
   ("anxious", "tension"), ("anxiety", "tension"), ("nervous", "tension"),
   ("calm", "peaceful"), ("peaceful", "peaceful"), ("serene", "peaceful"),
   ("excited", "energetic"), ("excitement", "energetic"),
   ("energetic", "energetic")]

/-- Rule-based mapping from emotion to themes (lines 406-428). -/
def emotionToThemes : List (String × List String) :=
  [("sad", ["loss", "nostalgia", "longing", "sorrow"]),
   ("sadness", ["loss", "nostalgia", "longing", "sorrow"]),
   ("happy", ["celebration", "joy", "optimism", "gratitude"]),
   ("happiness", ["celebration", "joy", "optimism", "gratitude"]),
   ("joy", ["celebration", "joy", "optimism", "gratitude"]),
   ("joyful", ["celebration", "joy", "optimism", "gratitude"]),
   ("angry", ["conflict", "frustration", "defiance", "struggle"]),
   ("anger", ["conflict", "frustration", "defiance", "struggle"]),
   ("rage", ["conflict", "frustration", "defiance", "struggle"]),
   ("love", ["romance", "connection", "devotion", "affection"]),
   ("loving", ["romance", "connection", "devotion", "affection"]),
   ("romantic", ["romance", "connection", "devotion", "affection"]),
   ("anxious", ["uncertainty", "worry", "anticipation", "tension"]),
   ("anxiety", ["uncertainty", "worry", "anticipation", "tension"]),
   ("nervous", ["uncertainty", "worry", "anticipation", "tension"]),
   ("calm", ["peace", "tranquility", "acceptance", "mindfulness"]),
   ("peaceful", ["peace", "tranquility", "acceptance", "mindfulness"]),
   ("serene", ["peace", "tranquility", "acceptance", "mindfulness"]),
   ("excited", ["anticipation", "adventure", "possibility", "enthusiasm"]),
   ("excitement", ["anticipation", "adventure", "possibility", "enthusiasm"]),
   ("energetic", ["anticipation", "adventure", "possibility", "enthusiasm"])]

/-- Rule-based tempo mapping from genre/emotion (lines 431-442). -/
def getTempo (genre : Option String) (emotion : Option String) : Option String :=
  let fromGenre : Option String :=
    match genre with
    | some g =>
      if g ≠ "" then
        if ["ballad", "slow", "ambient"].contains (jsToLower g) then some "slow"
        else if ["rock", "metal", "punk", "electronic", "dance"].contains (jsToLower g) then
          some "fast"
        else none
      else none
    | none => none
  match fromGenre with
  | some t => some t
  | none =>
    match emotion with
    | some e =>
      if e ≠ "" then
        let lowerEmotion := jsToLower e
        if ["sad", "calm", "peaceful", "melancholic"].contains lowerEmotion then
          some "slow"
        else if ["excited", "energetic", "angry", "rage"].contains lowerEmotion then
          some "fast"
        else some "moderate"
      else some "moderate"
    | none => some "moderate"

/-- createCreativeBriefDeterministically (lines 375-458): mood and themes by
case-insensitive table lookup with defaults `neutral` / `["general"]`, tempo
by `getTempo`, lyrics trimmed, style mirroring the genre. -/
def createCreativeBriefDeterministically (lyrics emotion : String)
    (genre : Option String) : CreativeBrief :=
  let emotionLower := jsToLower emotion
  let mood := (emotionToMood.lookup emotionLower).getD "neutral"
  let themes := (emotionToThemes.lookup emotionLower).getD ["general"]
  let tempo := getTempo genre (some emotion)
  { lyrics := jsTrim lyrics
    emotion := emotion
    genre := genre
    mood := mood
    themes := themes
    tempo := tempo
    style := match genre with
      | some g => if g ≠ "" then some g else none
      | none => none }

end BriefAgent

/-! ## Agent step shape and the BriefAgent decision policy
(melody-agent.test.ts, embedded BriefAgent source lines 358-576) -/

/-- String cast used where TS asserts a state value is a string. -/
def Value.asStrOrEmpty : Value → String
  | .vStr s => s
  | _ => ""

/-- One intended tool call `{type:'tool_call', toolId, input}`. -/
structure ActionM where
  toolId : String
  input : Value

/-- The AgentStep returned by a decision policy: plan plus intended actions
(observations/reflection are filled in later by the orchestrator and do not
influence its control flow, so they are not carried here). -/
structure AgentStep where
  agentId : String
  planSteps : List String
  planReasoning : String
  actions : List ActionM

namespace BriefAgent

/-- The policy's own improvement-cycle budget (`private maxIterations = 3`). -/
def maxIterations : Nat := 3

/-- CreativeBriefSchema.parse (`src/lib/agent/schemas/creative-brief.ts`):
lyrics and emotion must be non-empty; every brief built by
`createCreativeBriefDeterministically` already has tempo in the enum, and the
`language` default is applied when the brief is converted to a JS value. -/
def creativeBriefSchemaParse (b : CreativeBrief) : Except String CreativeBrief :=
  if b.lyrics == "" then .error "Lyrics are required"
  else if b.emotion == "" then .error "Emotion is required"
  else .ok b

end BriefAgent

/-- The validated brief as the JS object handed to tools and the state store
(key order as constructed in the source; `language` is the zod default). -/
def CreativeBrief.toValue (b : CreativeBrief) : Value :=
  .vObj [("lyrics", .vStr b.lyrics), ("emotion", .vStr b.emotion),
         ("genre", match b.genre with | some g => .vStr g | none => .vUndefined),
         ("mood", .vStr b.mood),
         ("themes", .vList (b.themes.map Value.vStr)),
         ("tempo", match b.tempo with | some t => .vStr t | none => .vUndefined),
         ("style", match b.style with | some s2 => .vStr s2 | none => .vUndefined),
         ("language", .vStr "en")]

namespace BriefAgent

/-- BriefAgent.execute (lines 464-575): the strict linear decision tree.
`toolIds` are the ids of the tools the agent was constructed with
(`findTool` resolves against them). Returns the mutated state and either the
AgentStep or the thrown error. -/
def execute (toolIds : List String) (st : St) : St × Except JsErr AgentStep :=
  let initialInput := stGet st "initialInput"
  let songStructure := stGet st "songStructure"
  let evaluation := stGet st "evaluation"
  let iterationCount := (stGet st "iterationCount").asNumOr0
  if !songStructure.truthy && initialInput.truthy then
    -- Step 1: generate initial song if not exists
    let lyrics := (initialInput.field "lyrics").asStrOrEmpty
    let emotion := (initialInput.field "emotion").asStrOrEmpty
    let genre : Option String :=
      match initialInput.field "genre" with
      | .vStr g => some g
      | _ => none
    let brief := createCreativeBriefDeterministically lyrics emotion genre
    match creativeBriefSchemaParse brief with
    | .error m => (st, .error (.zodError m))
    | .ok validatedBrief =>
      let bv := validatedBrief.toValue
      let st1 := stSet st "creativeBrief" bv
      if toolIds.contains "generate-song-structure" then
        (st1, .ok { agentId := "brief-agent"
                    planSteps := ["GenerateSongStructure"]
                    planReasoning := "Initial song generation needed from creative brief"
                    actions := [⟨"generate-song-structure", bv⟩] })
      else
        (st1, .error (.jsError "GenerateSongStructure tool not found"))
  else if songStructure.truthy && !evaluation.truthy then
    -- Step 2: evaluate if song exists but not evaluated
    if toolIds.contains "evaluate-lyrics" then
      (st, .ok { agentId := "brief-agent"
                 planSteps := ["EvaluateLyrics"]
                 planReasoning :=
                   "Song generated, need to evaluate quality before deciding on improvements"
                 actions := [⟨"evaluate-lyrics", .vObj [("songStructure", songStructure)]⟩] })
    else
      (st, .error (.jsError "EvaluateLyrics tool not found"))
  else if evaluation.truthy && songStructure.truthy
      && (evaluation.field "needsImprovement").truthy
      && iterationCount < maxIterations then
    -- Step 3: improve if evaluation shows needs improvement and under budget
    let nextIterationCount := iterationCount + 1
    let st1 := stSet st "iterationCount" (.vNum nextIterationCount)
    if toolIds.contains "improve-lyrics" then
      let userFeedback := stGet st1 "userFeedback"
      let q := (evaluation.field "quality").asNumOr0
      (st1, .ok { agentId := "brief-agent"
                  planSteps := ["ImproveLyrics"]
                  planReasoning :=
                    s!"Quality {q}/10 needs improvement. Attempting improvement (iteration {nextIterationCount}/{maxIterations})"
                    ++ (if userFeedback.truthy then " with user feedback" else "")
                  actions := [⟨"improve-lyrics",
                    .vObj ([("songStructure", songStructure), ("evaluation", evaluation)]
                      ++ (if userFeedback.truthy then [("userFeedback", userFeedback)] else []))⟩] })
    else
      (st1, .error (.jsError "ImproveLyrics tool not found"))
  else
    -- Step 4: done (quality acceptable or max iterations reached)
    let q := (evaluation.field "quality").asNumOr0
    let doneReason :=
      if evaluation.truthy then
        if maxIterations ≤ iterationCount then "Max iterations reached"
        else s!"Quality {q}/10 is acceptable"
      else "Song structure generated"
    (st, .ok { agentId := "brief-agent"
               planSteps := []
               planReasoning := doneReason
               actions := [] })

end BriefAgent

/-! ## Orchestrator — second class in `src/unnamed/part_005` (lines 453-1018)

The run loop is embedded with its effects made explicit: the progress hook
and the approval gate are injectable functions that may throw, tool
execution is an oracle indexed by the number of prior invocations (so that
every sequence of tool outputs is expressible), and `RunSt` carries the
state store, the trace, both guard counters, and instrumentation logs of
every tool invocation and gate consultation. -/

/-- Orchestrator constructor configuration (maxIterations after `?? 3`). -/
structure OrchConfig where
  maxSteps : Nat
  maxToolCalls : Nat
  allowedTools : List String
  maxIterations : Nat

/-- An agent as the orchestrator sees it: id, registered tool ids
(`agent.tools`), and the decision policy `execute` (which may mutate the
state store and may throw). -/
structure AgentM where
  id : String
  toolIds : List String
  execute : St → St × Except JsErr AgentStep

/-- Argument to the the onProgress hook. -/
structure ProgressUpdate where
  phase : String
  message : String
  toolId : Option String
  iterationCount : Option Nat

/-- The run context: configuration, agent, tool behaviour (oracle over the
invocation index, so outputs may differ between calls), optional approval
gate (oracle over the gate-call index) and optional progress hook. -/
structure OrchCtx where
  cfg : OrchConfig
  agent : AgentM
  toolExec : Nat → String → Value → Except JsErr Value
  gate : Option (Nat → String → Value → Except JsErr ApprovalData)
  hook : Option (ProgressUpdate → Except JsErr Unit)

/-- Trace event types. -/
inductive EvType where
  | plan | act | observe | reflect | tool_call | agent_step
deriving DecidableEq

/-- A trace event (timestamps, random ids and payload copies elided). -/
structure Ev where
  type : EvType
  agentId : Option String := none
  toolId : Option String := none
  error : Option String := none
  humanRejected : Bool := false
  reason : Option String := none

/-- An observation pushed for each processed action. -/
structure Observation where
  actionId : String
  output : Value
  success : Bool
  error : Option String := none

/-- The OrchestratorResult returned to the caller. -/
structure RunResult where
  success : Bool
  finalState : St
  trace : List Ev
  error : Option String := none

/-- Instrumentation record of one `tool.execute` invocation. -/
structure InvRec where
  toolId : String
  input : Value
  ok : Bool

/-- The mutable run state: state store, trace, the two guard counters, and
the instrumentation logs (`invLog` one entry per tool invocation, `gateLog`
one entry per approval-gate consultation). -/
structure RunSt where
  st : St
  trace : List Ev
  steps : Nat
  toolCalls : Nat
  invLog : List InvRec
  gateLog : List (String × Value)

/-- Reflection result. -/
structure Reflection where
  shouldContinue : Bool
  reasoning : String

namespace Orchestrator

/-- Invoke the optional onProgress hook (`this.onProgress?.(u)`); the source
does not guard these calls, so a throwing hook propagates. -/
def callHook (ctx : OrchCtx) (u : ProgressUpdate) : Except JsErr Unit :=
  match ctx.hook with
  | none => .ok ()
  | some h => h u

/-- Append a trace event. -/
def withTrace (rs : RunSt) (e : Ev) : RunSt := { rs with trace := rs.trace ++ [e] }

/-- storeToolOutput (lines 980-1001): fixed tool-id → state-key mapping;
improvement tools also clear `evaluation` to force re-evaluation. -/
def storeToolOutput (toolId : String) (output : Value) (st : St) : St :=
  if toolId == "generate-song-structure" then stSet st "songStructure" output
  else if toolId == "evaluate-lyrics" then stSet st "evaluation" output
  else if toolId == "improve-lyrics" then
    stSet (stSet st "songStructure" output) "evaluation" .vUndefined
  else if toolId == "generate-melody" then stSet st "melodyStructure" output
  else if toolId == "evaluate-melody" then stSet st "evaluation" output
  else if toolId == "improve-melody" then
    stSet (stSet st "melodyStructure" output) "evaluation" .vUndefined
  else st

/-- getStateKeyForTool (lines 1006-1017). -/
def getStateKeyForTool (toolId : String) : String :=
  if toolId == "generate-song-structure" || toolId == "improve-lyrics" then
    "songStructure"
  else if toolId == "evaluate-lyrics" then "evaluation"
  else if toolId == "generate-melody" || toolId == "improve-melody" then
    "melodyStructure"
  else if toolId == "evaluate-melody" then "evaluation"
  else toolId

/-- The tools subject to the approval gate (line 610). -/
def contentProducing (toolId : String) : Bool :=
  toolId == "generate-song-structure" || toolId == "improve-lyrics"

/-- Friendly tool name (`toolNames[id] || id`, lines 582-587). -/
def toolDisplayName (toolId : String) : String :=
  if toolId == "generate-song-structure" then "Generating Song Structure"
  else if toolId == "evaluate-lyrics" then "Evaluating Lyrics Quality"
  else if toolId == "improve-lyrics" then "Improving Lyrics"
  else toolId

/-- JS truthiness of the optional feedback string. -/
def fbTruthy : Option String → Bool
  | some f => f ≠ ""
  | none => false

/-- Input for the regeneration call (lines 645-667): `improve-lyrics` spreads
the original input and adds `userFeedback`; `generate-song-structure`
rebuilds the brief fields (dropping falsy optional ones) and adds
`userFeedback`; any other tool keeps the input unchanged. -/
def regenInput (toolId : String) (input : Value) (feedback : String) : Value :=
  if toolId == "improve-lyrics" then
    input.setField "userFeedback" (.vStr feedback)
  else if toolId == "generate-song-structure" then
    .vObj ([("lyrics", input.field "lyrics"), ("emotion", input.field "emotion"),
            ("mood", input.field "mood"), ("themes", input.field "themes")]
      ++ (if (input.field "genre").truthy then [("genre", input.field "genre")] else [])
      ++ (if (input.field "tempo").truthy then [("tempo", input.field "tempo")] else [])
      ++ (if (input.field "style").truthy then [("style", input.field "style")] else [])
      ++ [("userFeedback", .vStr feedback)])
  else input

/-- Invoke a tool through the oracle, logging the invocation. -/
def execToolCall (ctx : OrchCtx) (rs : RunSt) (toolId : String) (input : Value) :
    RunSt × Except JsErr Value :=
  match ctx.toolExec rs.invLog.length toolId input with
  | .ok v => ({ rs with invLog := rs.invLog ++ [⟨toolId, input, true⟩] }, .ok v)
  | .error e => ({ rs with invLog := rs.invLog ++ [⟨toolId, input, false⟩] }, .error e)

/-- The human-in-the-loop block (lines 609-693): consult the gate for
content-producing tools; reject aborts the run, regenerate re-invokes the
tool once (with feedback merged in when present, and clears `userFeedback`
for `generate-song-structure`), approve keeps the output. Returns either the
early-return RunResult (inl) or the output to commit (inr). -/
def gatePhase (ctx : OrchCtx) (rs : RunSt) (a : ActionM) (output : Value) :
    Except (JsErr × RunSt) (RunSt × (RunResult ⊕ Value)) :=
  match ctx.gate with
  | none => .ok (rs, .inr output)
  | some g =>
    if contentProducing a.toolId then
      match callHook ctx ⟨"observing", "Waiting for approval of generated content...",
                          none, none⟩ with
      | .error e => .error (e, rs)
      | .ok _ =>
        let res := g rs.gateLog.length a.toolId output
        let rs1 := { rs with gateLog := rs.gateLog ++ [(a.toolId, output)] }
        match res with
        | .error e => .error (e, rs1)
        | .ok approvalResult =>
          match approvalResult.decision with
          | .reject =>
            let rs2 := withTrace rs1
              { type := .tool_call, toolId := some a.toolId, humanRejected := true }
            .ok (rs2, .inl { success := false, finalState := rs2.st, trace := rs2.trace,
                             error := some "Content generation rejected by human-in-the-loop" })
          | .regenerate =>
            let dn := toolDisplayName a.toolId
            let msg := if fbTruthy approvalResult.feedback
              then s!"Regenerating with your feedback: {dn}..."
              else s!"Regenerating: {dn}..."
            match callHook ctx ⟨"tool_call", msg, some a.toolId, none⟩ with
            | .error e => .error (e, rs1)
            | .ok _ =>
              let toolInput := if fbTruthy approvalResult.feedback
                then regenInput a.toolId a.input (approvalResult.feedback.getD "")
                else a.input
              match execToolCall ctx rs1 a.toolId toolInput with
              | (rs2, .error e) => .error (e, rs2)
              | (rs2, .ok output2) =>
                let rs3 := if a.toolId == "generate-song-structure"
                  then { rs2 with st := stSet rs2.st "userFeedback" .vUndefined }
                  else rs2
                match callHook ctx ⟨"observing", s!"Regeneration completed: {dn}",
                                    none, none⟩ with
                | .error e => .error (e, rs3)
                | .ok _ => .ok (rs3, .inr output2)
          | .approve =>
            let dn := toolDisplayName a.toolId
            match callHook ctx ⟨"observing", s!"Content approved: {dn}", none, none⟩ with
            | .error e => .error (e, rs1)
            | .ok _ => .ok (rs1, .inr output)
    else .ok (rs, .inr output)

/-- observe (lines 852-869): read back the committed state key; success
means the value is neither `undefined` nor `null` (`output || null` in the
payload). -/
def observe (rs : RunSt) (toolId : String) : RunSt × Observation :=
  let output := stGet rs.st (getStateKeyForTool toolId)
  let rs1 := withTrace rs { type := .observe, toolId := some toolId }
  (rs1, { actionId := toolId
          output := if output.truthy then output else .vNull
          success := match output with
            | .vUndefined => false
            | .vNull => false
            | _ => true })

/-- reflect (lines 874-975): the guarded early returns of the source,
flattened into one decision chain (quality compared in tenths: the source's
`quality >= 8.5` is `85 ≤ q`). The `Song structure generated` branch is the
only one that records no reflect trace event, exactly as in the source. -/
def reflect (ctx : OrchCtx) (rs : RunSt) : RunSt × Reflection :=
  let songStructure := stGet rs.st "songStructure"
  let evaluation := stGet rs.st "evaluation"
  let iterationCount := (stGet rs.st "iterationCount").asNumOr0
  let q := (evaluation.field "quality").asNumOr0
  let needsImp := (evaluation.field "needsImprovement").truthy
  let m := ctx.cfg.maxIterations
  if songStructure.truthy && !evaluation.truthy then
    (withTrace rs { type := .reflect },
     ⟨true, "Song generated, need to evaluate quality"⟩)
  else if evaluation.truthy && songStructure.truthy && needsImp
      && iterationCount < ctx.cfg.maxIterations then
    (withTrace rs { type := .reflect },
     ⟨true, s!"Quality {q}/10, attempting improvement (iteration {iterationCount + 1}/{m})"⟩)
  else if evaluation.truthy && songStructure.truthy && (!needsImp || 85 ≤ q) then
    (withTrace rs { type := .reflect },
     ⟨false, s!"Quality {q}/10 is acceptable"⟩)
  else if ctx.cfg.maxIterations ≤ iterationCount then
    (withTrace rs { type := .reflect },
     ⟨false, s!"Max iterations ({m}) reached"⟩)
  else if songStructure.truthy then
    (rs, ⟨false, "Song structure generated"⟩)
  else
    (withTrace rs { type := .reflect },
     ⟨true, "Initial generation needed"⟩)

/-- The body of the per-action `try` block (lines 574-727): resolve the
tool (throwing if missing), run it, apply the gate phase, record the
successful call, commit via storeToolOutput, observe, bump the counter.
Errors carry the run state and observations accumulated so far (they are
what the catch block sees). The inl RunResult is the reject early return. -/
def tryBody (ctx : OrchCtx) (rs : RunSt) (obsAcc : List Observation) (a : ActionM) :
    Except (JsErr × RunSt × List Observation)
      (RunSt × List Observation × Option RunResult) :=
  if ctx.agent.toolIds.contains a.toolId then
    let dn := toolDisplayName a.toolId
    let iterationCount := (stGet rs.st "iterationCount").asNumOr0
    match callHook ctx ⟨"tool_call", s!"Running: {dn}...", some a.toolId,
                        some iterationCount⟩ with
    | .error e => .error (e, rs, obsAcc)
    | .ok _ =>
      let rs1 := withTrace rs { type := .tool_call, toolId := some a.toolId }
      match execToolCall ctx rs1 a.toolId a.input with
      | (rs2, .error e) => .error (e, rs2, obsAcc)
      | (rs2, .ok output) =>
        match gatePhase ctx rs2 a output with
        | .error (e, rs3) => .error (e, rs3, obsAcc)
        | .ok (rs3, .inl r) => .ok (rs3, obsAcc, some r)
        | .ok (rs3, .inr output2) =>
          let rs4 := withTrace rs3 { type := .tool_call, toolId := some a.toolId }
          let rs5 := { rs4 with st := storeToolOutput a.toolId output2 rs4.st }
          match callHook ctx ⟨"observing", s!"Capturing output from {dn}...",
                              none, none⟩ with
          | .error e => .error (e, rs5, obsAcc)
          | .ok _ =>
            let (rs6, observation) := observe rs5 a.toolId
            let obs1 := obsAcc ++ [observation]
            let rs7 := { rs6 with toolCalls := rs6.toolCalls + 1 }
            match callHook ctx ⟨"observing", s!"Completed: {dn}", none, none⟩ with
            | .error e => .error (e, rs7, obs1)
            | .ok _ => .ok (rs7, obs1, none)
  else
    .error (.jsError ("Tool " ++ a.toolId ++ " not found"), rs, obsAcc)

/-- One action of the act loop (lines 549-745): the two guardrail checks
outside the try block, then the try body with its catch (which records a
failed tool_call trace event and a failed observation, and lets the run
continue). Errors escaping here go to the outer catch of `run`. -/
def processAction (ctx : OrchCtx) (rs : RunSt) (obsAcc : List Observation)
    (a : ActionM) :
    Except (JsErr × RunSt) (RunSt × List Observation × Option RunResult) :=
  if ctx.cfg.maxToolCalls ≤ rs.toolCalls then
    let m := ctx.cfg.maxToolCalls
    match callHook ctx ⟨"error", s!"Max tool calls ({m}) exceeded", none, none⟩ with
    | .error e => .error (e, rs)
    | .ok _ =>
      .ok (rs, obsAcc, some { success := false, finalState := rs.st, trace := rs.trace,
                              error := some s!"Max tool calls ({m}) exceeded" })
  else if !(ctx.cfg.allowedTools.contains a.toolId) then
    .ok (rs, obsAcc ++ [{ actionId := a.toolId, output := .vNull, success := false,
                          error :=
                            some ("Tool " ++ a.toolId ++ " not in allowed tools list") }],
         none)
  else
    match tryBody ctx rs obsAcc a with
    | .ok r => .ok r
    | .error (e, rs1, obs1) =>
      let msg := e.message
      let rs2 := withTrace rs1 { type := .tool_call, toolId := some a.toolId,
                                 error := some msg }
      .ok (rs2, obs1 ++ [{ actionId := a.toolId, output := .vNull, success := false,
                           error := some msg }], none)

/-- The `for (const action of agentStep.actions)` loop; a fatal result
(guardrail breach or gate rejection) stops the loop and is returned. -/
def processActions (ctx : OrchCtx) :
    RunSt → List Observation → List ActionM →
    Except (JsErr × RunSt) (RunSt × List Observation × Option RunResult)
  | rs, obsAcc, [] => .ok (rs, obsAcc, none)
  | rs, obsAcc, a :: rest =>
    match processAction ctx rs obsAcc a with
    | .error er => .error er
    | .ok (rs1, obs1, some r) => .ok (rs1, obs1, some r)
    | .ok (rs1, obs1, none) => processActions ctx rs1 obs1 rest

/-- Outcome of one iteration of the main while loop. -/
inductive StepOut where
  | ret : RunResult → RunSt → StepOut
  | brk : RunSt → StepOut
  | cont : RunSt → StepOut

/-- One iteration of the main loop (lines 519-788): bump the step counter,
plan (record the plan event), break on an empty action list, otherwise act,
observe and reflect. -/
def stepOnce (ctx : OrchCtx) (rs : RunSt) : Except (JsErr × RunSt) StepOut :=
  let rs0 := { rs with steps := rs.steps + 1 }
  let n := rs0.steps
  match callHook ctx ⟨"planning", s!"Step {n}: Planning next action...", none, none⟩ with
  | .error e => .error (e, rs0)
  | .ok _ =>
    let planned := ctx.agent.execute rs0.st
    let rs1 := { rs0 with st := planned.1 }
    match planned.2 with
    | .error e => .error (e, rs1)
    | .ok agentStep =>
      let rs2 := withTrace rs1 { type := .plan, agentId := some ctx.agent.id }
      if agentStep.actions.isEmpty then
        let rs3 := withTrace rs2 { type := .agent_step, agentId := some ctx.agent.id,
                                   reason := some agentStep.planReasoning }
        .ok (.brk rs3)
      else
        let k := agentStep.actions.length
        match callHook ctx ⟨"acting", s!"Executing {k} action(s)...", none, none⟩ with
        | .error e => .error (e, rs2)
        | .ok _ =>
          match processActions ctx rs2 [] agentStep.actions with
          | .error er => .error er
          | .ok (rs3, _, some r) => .ok (.ret r rs3)
          | .ok (rs3, _, none) =>
            let iterationCount := (stGet rs3.st "iterationCount").asNumOr0
            let m := ctx.cfg.maxIterations
            let suffix := if 0 < iterationCount
              then s!"(Iteration {iterationCount}/{m})" else ""
            match callHook ctx ⟨"reflecting", s!"Evaluating progress... {suffix}",
                                none, some iterationCount⟩ with
            | .error e => .error (e, rs3)
            | .ok _ =>
              let reflected := reflect ctx rs3
              let rs4 := reflected.1
              let reflection := reflected.2
              let msg := if reflection.shouldContinue
                then s!"Continuing: {reflection.reasoning}"
                else s!"Goal achieved: {reflection.reasoning}"
              match callHook ctx ⟨"reflecting", msg, none, none⟩ with
              | .error e => .error (e, rs4)
              | .ok _ =>
                let rs5 := withTrace rs4 { type := .agent_step,
                                           agentId := some ctx.agent.id }
                if reflection.shouldContinue then .ok (.cont rs5) else .ok (.brk rs5)

/-- The code after the while loop (lines 790-796): the complete hook, then
the success result. Also reached when the step budget is exhausted. -/
def afterLoop (ctx : OrchCtx) (rs : RunSt) :
    Except (JsErr × RunSt) (RunResult × RunSt) :=
  match callHook ctx ⟨"complete", "Song generation completed!", none, none⟩ with
  | .error e => .error (e, rs)
  | .ok _ => .ok ({ success := true, finalState := rs.st, trace := rs.trace }, rs)

/-- The while loop, by fuel; `run` supplies `maxSteps` as fuel, and the loop
also re-checks `steps < maxSteps` exactly like the source condition. -/
def runLoop (ctx : OrchCtx) : Nat → RunSt → Except (JsErr × RunSt) (RunResult × RunSt)
  | 0, rs => afterLoop ctx rs
  | fuel + 1, rs =>
    if rs.steps < ctx.cfg.maxSteps then
      match stepOnce ctx rs with
      | .error er => .error er
      | .ok (.ret r rsAt) => .ok (r, rsAt)
      | .ok (.brk rs1) => afterLoop ctx rs1
      | .ok (.cont rs1) => runLoop ctx fuel rs1
    else afterLoop ctx rs

/-- The outer catch block (lines 797-812): report the error through the
hook (a second throw here escapes `run` entirely — the promise rejects),
record the failure event and return the failure result. -/
def runCatch (ctx : OrchCtx) (e : JsErr) (rs : RunSt) : RunSt × Except JsErr RunResult :=
  let msg := e.message
  match callHook ctx ⟨"error", s!"Error: {msg}", none, none⟩ with
  | .error e2 => (rs, .error e2)
  | .ok _ =>
    let rs1 := withTrace rs { type := .agent_step, error := some msg }
    (rs1, .ok { success := false, finalState := rs1.st, trace := rs1.trace,
                error := some msg })

/-- Orchestrator.run (lines 508-813): reset counters, store the initial
input, run the loop under the outer try/catch. Returns the final
instrumented run state together with the settled promise (`.error` is a
promise rejection, possible only when the hook throws inside the catch). -/
def run (ctx : OrchCtx) (initialInput : Value) (st0 : St) :
    RunSt × Except JsErr RunResult :=
  let rs0 : RunSt := { st := stSet st0 "initialInput" initialInput, trace := [],
                       steps := 0, toolCalls := 0, invLog := [], gateLog := [] }
  match callHook ctx ⟨"planning", "Initializing agent...", none, none⟩ with
  | .error e => runCatch ctx e rs0
  | .ok _ =>
    match runLoop ctx ctx.cfg.maxSteps rs0 with
    | .error (e, rs) => runCatch ctx e rs
    | .ok (r, rs) => (rs, .ok r)

end Orchestrator

/-! ## C7 — the lyrics policy improvement branch and `userFeedback` -/

/-- Tool ids of the actions of a policy result (empty on a throw). -/
def stepActionIds : Except JsErr AgentStep → List String
  | .ok step => step.actions.map (fun a => a.toolId)
  | .error _ => []

/-- Input of the first action of a policy result. -/
def firstActionInput : Except JsErr AgentStep → Value
  | .ok step =>
    match step.actions with
    | a :: _ => a.input
    | [] => .vUndefined
  | .error _ => .vUndefined

namespace Orchestrator

/-- The run state a tryBody outcome carries. -/
def tryOutSt :
    Except (JsErr × RunSt × List Observation)
      (RunSt × List Observation × Option RunResult) → RunSt
  | .error (_, rs, _) => rs
  | .ok (rs, _, _) => rs

/-- The run state a processAction / processActions outcome carries. -/
def actOutSt :
    Except (JsErr × RunSt) (RunSt × List Observation × Option RunResult) → RunSt
  | .error (_, rs) => rs
  | .ok (rs, _, _) => rs

/-- The run state a stepOnce outcome carries. -/
def stepOutSt : Except (JsErr × RunSt) StepOut → RunSt
  | .error (_, rs) => rs
  | .ok (.ret _ rs) => rs
  | .ok (.brk rs) => rs
  | .ok (.cont rs) => rs

/-- The run state a runLoop outcome carries. -/
def loopOutSt : Except (JsErr × RunSt) (RunResult × RunSt) → RunSt
  | .error (_, rs) => rs
  | .ok (_, rs) => rs

/-- The run state a gatePhase outcome carries. -/
def gateOutSt : Except (JsErr × RunSt) (RunSt × (RunResult ⊕ Value)) → RunSt
  | .error (_, rs) => rs
  | .ok (rs, _) => rs

end Orchestrator

/-! ## Concrete run fixtures for counterexamples -/

/-- Success flag of a settled run promise (`none` = the promise rejected). -/
def runSuccess : Except JsErr RunResult → Option Bool
  | .ok r => some r.success
  | .error _ => none

/-- A brief-shaped input for the generate tool. -/
def briefInputVal : Value :=
  .vObj [("lyrics", .vStr "la"), ("emotion", .vStr "happy"),
         ("mood", .vStr "upbeat"), ("themes", .vList [.vStr "joy"])]

/-- Context whose gate always answers regenerate-with-feedback: used to
count tool invocations under `maxToolCalls = 1`. -/
def regenCtx : OrchCtx :=
  { cfg := { maxSteps := 5, maxToolCalls := 1,
             allowedTools := ["generate-song-structure"], maxIterations := 3 }
    agent := { id := "brief-agent", toolIds := ["generate-song-structure"]
               execute := fun st =>
                 if (stGet st "songStructure").truthy then
                   (st, .ok { agentId := "brief-agent", planSteps := []
                              planReasoning := "Song structure generated"
                              actions := [] })
                 else
                   (st, .ok { agentId := "brief-agent"
                              planSteps := ["GenerateSongStructure"]
                              planReasoning := "Initial song generation needed"
                              actions := [⟨"generate-song-structure", briefInputVal⟩] }) }
    toolExec := fun _ _ _ => .ok (.vObj [("title", .vStr "t")])
    gate := some (fun _ _ _ => .ok ⟨.regenerate, some "shorter chorus"⟩)
    hook := none }

/-- Context whose policy emits an allow-listed tool id that is not among the
agent's registered tools (and terminates at the following plan phase). -/
def missingToolCtx : OrchCtx :=
  { cfg := { maxSteps := 5, maxToolCalls := 3, allowedTools := ["improve-lyrics"],
             maxIterations := 3 }
    agent := { id := "brief-agent", toolIds := []
               execute := fun st =>
                 if (stGet st "p").truthy then
                   (st, .ok { agentId := "brief-agent", planSteps := []
                              planReasoning := "done", actions := [] })
                 else
                   (stSet st "p" (.vBool true),
                    .ok { agentId := "brief-agent", planSteps := ["ImproveLyrics"]
                          planReasoning := "improve"
                          actions := [⟨"improve-lyrics", .vNull⟩] }) }
    toolExec := fun _ _ _ => .ok .vNull
    gate := none
    hook := none }

/-- Context with a progress hook that throws on every invocation. -/
def hookThrowCtx : OrchCtx :=
  { cfg := { maxSteps := 2, maxToolCalls := 2, allowedTools := [],
             maxIterations := 3 }
    agent := { id := "brief-agent", toolIds := []
               execute := fun st =>
                 (st, .ok { agentId := "brief-agent", planSteps := []
                            planReasoning := "done", actions := [] }) }
    toolExec := fun _ _ _ => .ok .vNull
    gate := none
    hook := some (fun _ => .error (.jsError "hook failure")) }

/-- The same context with no hook configured. -/
def hookNoneCtx : OrchCtx := { hookThrowCtx with hook := none }

/-! ## C5 — approval rejection aborts the run without committing -/

/-- The settled RunResult of a loop outcome (`none` while an exception is
propagating to the outer catch). -/
def loopResult : Except (JsErr × RunSt) (RunResult × RunSt) → Option RunResult
  | .ok (r, _) => some r
  | .error _ => none

/-- Context whose gate always rejects. -/
def rejectCtx : OrchCtx :=
  { regenCtx with gate := some (fun _ _ _ => .ok ⟨.reject, none⟩) }

/-! ## C6 — regenerate-with-feedback single round trip -/

/-- True when an action outcome lets the act loop continue (no fatal result,
no exception). -/
def actContinues :
    Except (JsErr × RunSt) (RunSt × List Observation × Option RunResult) → Bool
  | .ok (_, _, none) => true
  | _ => false

theorem stGet_stSet_same (s : St) (k : String) (v : Value) :
    stGet (stSet s k v) k = v := by
  simp [stGet, stSet]

theorem stGet_stSet_ne (s : St) (k k2 : String) (v : Value) (h : k2 ≠ k) :
    stGet (stSet s k v) k2 = stGet s k2 := by
  simp [stGet, stSet, h]

/-! ## Helper lemmas -/

theorem lookup_filter_ne_none {α : Type} (l : List (String × α)) (k : String) :
    (l.filter (fun p => !(p.1 == k))).lookup k = none := by
  induction l with
  | nil => rfl
  | cons hd tl ih =>
    cases hk : (hd.1 == k) with
    | true => simpa [List.filter_cons, hk] using ih
    | false =>
      have hne : (k == hd.1) = false := by
        refine beq_false_of_ne ?_
        intro h
        rw [h] at hk
        simp at hk
      simpa [List.filter_cons, hk, List.lookup, hne] using ih

/-! ## C4 — validated tool contract -/

/-- C4: for every input failing the tool's input schema, `Tool.execute`
fails with a validation error naming the tool, and the internal work is
never invoked (the result is the same for every `executeInternal`, so no
side effect can occur); for every input that passes, the internal work runs
and its result is validated against the output schema, failing with a
validation error when it does not conform. -/
theorem tool_execute_validation_contract (t : ToolSpec) (input : Value) :
    (∀ m, t.inputSchema input = .error m →
      ToolSpec.execute t input =
        .error (.jsError ("Tool " ++ t.name ++ " validation error: " ++ m))
      ∧ ∀ f g, ToolSpec.execute { t with executeInternal := f } input
          = ToolSpec.execute { t with executeInternal := g } input)
    ∧ (∀ v out, t.inputSchema input = .ok v → t.executeInternal v = .ok out →
        (∀ o, t.outputSchema out = .ok o → ToolSpec.execute t input = .ok o)
        ∧ (∀ m, t.outputSchema out = .error m →
            ToolSpec.execute t input =
              .error (.jsError ("Tool " ++ t.name ++ " validation error: " ++ m)))) := by
  constructor
  · intro m hm
    constructor
    · simp [ToolSpec.execute, hm]
    · intro f g
      simp [ToolSpec.execute, hm]
  · intro v out hv hout
    constructor
    · intro o ho
      simp [ToolSpec.execute, hv, hout, ho]
    · intro m hm
      simp [ToolSpec.execute, hv, hout, hm]

/-- Witness for C4 at a concrete tool: a schema accepting only strings, an
internal work step the validated path runs, and both failure modes. -/
theorem tool_execute_validation_contract_witness :
    let strSchema : Value → Except String Value := fun v =>
      match v with
      | .vStr s2 => .ok (.vStr s2)
      | _ => .error "expected string"
    let t : ToolSpec :=
      { id := "test-tool", name := "TestTool", inputSchema := strSchema,
        outputSchema := strSchema,
        executeInternal := fun v => .ok v }
    ToolSpec.execute t (.vNum 3) =
      .error (.jsError ("Tool " ++ "TestTool" ++ " validation error: " ++ "expected string"))
    ∧ ToolSpec.execute t (.vStr "hello") = .ok (.vStr "hello") := by
  intro strSchema t
  constructor
  · exact ((tool_execute_validation_contract t (.vNum 3)).1 "expected string" rfl).1
  · exact ((tool_execute_validation_contract t (.vStr "hello")).2 (.vStr "hello")
      (.vStr "hello") rfl rfl).1 (.vStr "hello") rfl

/-! ## C9 — approval store at-most-once resolution and timeout -/

/-- C9: for every request id at most one resolution is honored.
resolveApproval on a pending id returns `true`, frees the pending slot, and
emits its effects in delete-then-resolve order; on an unknown (or already
resolved) id it returns `false` and is a no-op on the store and on the
promise (no effects); consequently a second resolution of the same id is a
no-op returning failure. An unresolved request is auto-rejected by the
timeout callback after the fixed 5-minute window and its slot is freed. -/
theorem approval_store_at_most_once (s : ApprovalStore) (requestId : String)
    (d d2 : Decision) (fb fb2 : Option String) (ts : Nat)
    (hp : s.pendingApprovals.lookup requestId = some ts) :
    (ApprovalStore.resolveApproval s requestId d fb).2.1 = true
    ∧ (∃ dd, (ApprovalStore.resolveApproval s requestId d fb).2.2 =
        [.dataSet requestId dd, .deletePending requestId,
         .promiseResolve requestId dd])
    ∧ ((ApprovalStore.resolveApproval s requestId d fb).1).pendingApprovals.lookup
        requestId = none
    ∧ (∀ s2 : ApprovalStore, s2.pendingApprovals.lookup requestId = none →
        ApprovalStore.resolveApproval s2 requestId d2 fb2 = (s2, false, []))
    ∧ ApprovalStore.resolveApproval
        (ApprovalStore.resolveApproval s requestId d fb).1 requestId d2 fb2 =
        ((ApprovalStore.resolveApproval s requestId d fb).1, false, [])
    ∧ ApprovalStore.timeoutCallback
        (ApprovalStore.resolveApproval s requestId d fb).1 requestId =
        ((ApprovalStore.resolveApproval s requestId d fb).1, [])
    ∧ ((ApprovalStore.timeoutCallback s requestId).1).pendingApprovals.lookup
        requestId = none
    ∧ (ApprovalStore.timeoutCallback s requestId).2 =
        [.deletePending requestId,
         .promiseReject requestId "Approval request timed out"]
    ∧ ApprovalStore.TIMEOUT_MS = 5 * 60 * 1000 := by
  have hfree : ((ApprovalStore.resolveApproval s requestId d fb).1).pendingApprovals.lookup
      requestId = none := by
    simp only [ApprovalStore.resolveApproval, hp]
    exact lookup_filter_ne_none _ _
  have hnoop : ∀ s2 : ApprovalStore, s2.pendingApprovals.lookup requestId = none →
      ApprovalStore.resolveApproval s2 requestId d2 fb2 = (s2, false, []) := by
    intro s2 h2
    simp [ApprovalStore.resolveApproval, h2]
  refine ⟨?_, ?_, hfree, hnoop, hnoop _ hfree, ?_, ?_, ?_, rfl⟩
  · simp [ApprovalStore.resolveApproval, hp]
  · refine ⟨⟨d, ?_⟩, ?_⟩
    · exact match fb with
        | none => none
        | some f => if f.trim == "" then none else some f.trim
    · simp only [ApprovalStore.resolveApproval, hp]
      cases fb <;> simp
  · simp [ApprovalStore.timeoutCallback, hfree]
  · have hsome : (s.pendingApprovals.lookup requestId).isSome = true := by
      simp [hp]
    simp only [ApprovalStore.timeoutCallback, hsome, if_true]
    exact lookup_filter_ne_none _ _
  · simp [ApprovalStore.timeoutCallback, hp]

/-- Witness for C9: a store holding one pending request `r1`. -/
theorem approval_store_at_most_once_witness :
    (ApprovalStore.resolveApproval ⟨[("r1", 0)], []⟩ "r1" .approve (some " ok ")).2.1
      = true := by
  exact (approval_store_at_most_once ⟨[("r1", 0)], []⟩ "r1" .approve .reject
    (some " ok ") none 0 rfl).1

/-! ## C10 — deterministic creative brief defaults -/

theorem lookup_none_of_not_mem_keys {α : Type} (l : List (String × α)) (k : String)
    (h : k ∉ l.map Prod.fst) : l.lookup k = none := by
  induction l with
  | nil => rfl
  | cons hd tl ih =>
    simp only [List.map_cons, List.mem_cons] at h
    push_neg at h
    simp [List.lookup, beq_false_of_ne h.1, ih h.2]

/-- C10 counterexample: the emotion `Melancholic` lowercases to a string
absent from the emotion lookup tables, and with no genre the brief defaults
mood to `neutral` and themes to `["general"]` — but its tempo is `slow`,
not `moderate` as the claim states, because `melancholic` appears in the
tempo rule's slow list. -/
theorem brief_default_counterexample :
    jsToLower "Melancholic" ∉ BriefAgent.emotionToMood.map Prod.fst
    ∧ (BriefAgent.createCreativeBriefDeterministically "  hi  " "Melancholic" none).mood
        = "neutral"
    ∧ (BriefAgent.createCreativeBriefDeterministically "  hi  " "Melancholic" none).themes
        = ["general"]
    ∧ (BriefAgent.createCreativeBriefDeterministically "  hi  " "Melancholic" none).tempo
        = some "slow"
    ∧ (BriefAgent.createCreativeBriefDeterministically "  hi  " "Melancholic" none).tempo
        ≠ some "moderate"
    ∧ (BriefAgent.createCreativeBriefDeterministically "  hi  " "Melancholic" none).lyrics
        = "hi" := by
  refine ⟨by decide, by decide, by decide, by decide, by decide, by decide⟩

/-- C10 amended: for an emotion whose lowercase form is not in the fixed
lookup tables and no genre, the brief defaults to mood `neutral`, themes
`["general"]`, and tempo `moderate` — except that the tempo is `slow` when
the lowercased emotion is exactly `melancholic` (the one string in the
tempo slow list that is absent from the mood/theme tables). Lookups are
case-insensitive in the emotion (they depend only on its lowercase form,
with emptiness preserved by lowering), and the lyrics field is the trimmed
input lyrics. -/
theorem brief_default_amended (lyrics emotion : String)
    (h : jsToLower emotion ∉ BriefAgent.emotionToMood.map Prod.fst) :
    (BriefAgent.createCreativeBriefDeterministically lyrics emotion none).mood = "neutral"
    ∧ (BriefAgent.createCreativeBriefDeterministically lyrics emotion none).themes
        = ["general"]
    ∧ (BriefAgent.createCreativeBriefDeterministically lyrics emotion none).tempo
        = some (if jsToLower emotion = "melancholic" then "slow" else "moderate")
    ∧ (BriefAgent.createCreativeBriefDeterministically lyrics emotion none).lyrics
        = jsTrim lyrics
    ∧ (∀ e2 g2 l2, jsToLower e2 = jsToLower emotion →
        (BriefAgent.createCreativeBriefDeterministically l2 e2 g2).mood
          = (BriefAgent.createCreativeBriefDeterministically l2 emotion g2).mood
        ∧ (BriefAgent.createCreativeBriefDeterministically l2 e2 g2).themes
          = (BriefAgent.createCreativeBriefDeterministically l2 emotion g2).themes
        ∧ (BriefAgent.createCreativeBriefDeterministically l2 e2 g2).tempo
          = (BriefAgent.createCreativeBriefDeterministically l2 emotion g2).tempo) := by
  have hthemesKeys : BriefAgent.emotionToThemes.map Prod.fst
      = BriefAgent.emotionToMood.map Prod.fst := by decide
  have hThemes : jsToLower emotion ∉ BriefAgent.emotionToThemes.map Prod.fst := by
    rw [hthemesKeys]; exact h
  have hMoodNone := lookup_none_of_not_mem_keys _ _ h
  have hThemesNone := lookup_none_of_not_mem_keys _ _ hThemes
  have hsad : jsToLower emotion ≠ "sad" := by
    intro he; exact h (by rw [he]; decide)
  have hcalm : jsToLower emotion ≠ "calm" := by
    intro he; exact h (by rw [he]; decide)
  have hpeaceful : jsToLower emotion ≠ "peaceful" := by
    intro he; exact h (by rw [he]; decide)
  have hexcited : jsToLower emotion ≠ "excited" := by
    intro he; exact h (by rw [he]; decide)
  have henergetic : jsToLower emotion ≠ "energetic" := by
    intro he; exact h (by rw [he]; decide)
  have hangry : jsToLower emotion ≠ "angry" := by
    intro he; exact h (by rw [he]; decide)
  have hrage : jsToLower emotion ≠ "rage" := by
    intro he; exact h (by rw [he]; decide)
  have hempty : ∀ e2 : String, jsToLower e2 = "" → e2 = "" := by
    intro e2 he
    have : e2.data.map Char.toLower = [] := congrArg String.data he
    have hd : e2.data = [] := by
      cases hdata : e2.data with
      | nil => rfl
      | cons c cs => rw [hdata] at this; simp at this
    cases e2; simp_all
  have htempo : BriefAgent.getTempo none (some emotion)
      = some (if jsToLower emotion = "melancholic" then "slow" else "moderate") := by
    by_cases he : emotion = ""
    · subst he
      have : jsToLower "" = "" := rfl
      simp [BriefAgent.getTempo, this]
    · by_cases hmel : jsToLower emotion = "melancholic"
      · simp [BriefAgent.getTempo, he, hmel]
      · simp [BriefAgent.getTempo, he, hmel, hsad, hcalm, hpeaceful,
              hexcited, henergetic, hangry, hrage]
  refine ⟨?_, ?_, ?_, rfl, ?_⟩
  · simp [BriefAgent.createCreativeBriefDeterministically, hMoodNone]
  · simp [BriefAgent.createCreativeBriefDeterministically, hThemesNone]
  · simpa [BriefAgent.createCreativeBriefDeterministically] using htempo
  · intro e2 g2 l2 he2
    have hemm : e2 = "" ↔ emotion = "" := by
      constructor
      · intro hz; subst hz
        exact hempty emotion (by rw [← he2]; rfl)
      · intro hz; subst hz
        exact hempty e2 (by rw [he2]; rfl)
    refine ⟨?_, ?_, ?_⟩
    · simp [BriefAgent.createCreativeBriefDeterministically, he2]
    · simp [BriefAgent.createCreativeBriefDeterministically, he2]
    · simp only [BriefAgent.createCreativeBriefDeterministically]
      by_cases hz : emotion = ""
      · have hz2 : e2 = "" := hemm.mpr hz
        subst hz; subst hz2; rfl
      · have hz2 : ¬ e2 = "" := fun hq => hz (hemm.mp hq)
        simp [BriefAgent.getTempo, hz, hz2, he2]

/-- Witness for C10 amended at the concrete emotion of the counterexample. -/
theorem brief_default_amended_witness :
    (BriefAgent.createCreativeBriefDeterministically "  hi  " "Melancholic" none).tempo
      = some (if jsToLower "Melancholic" = "melancholic" then "slow" else "moderate") := by
  exact (brief_default_amended "  hi  " "Melancholic" (by decide)).2.2.1

/-- C7 counterexample: a state where the improvement branch fires with
pending feedback `x`. The emitted action does carry the draft, the
evaluation and the feedback, and `iterationCount` is incremented — but the
`userFeedback` key is NOT cleared from state after the action is emitted
(it still reads `x`), contradicting the claim. -/
theorem improve_branch_counterexample :
    (stepActionIds (BriefAgent.execute
        ["generate-song-structure", "evaluate-lyrics", "improve-lyrics"]
        (stSet (stSet (stSet stEmpty "songStructure" (.vObj [("title", .vStr "t")]))
          "evaluation" (.vObj [("needsImprovement", .vBool true), ("quality", .vNum 70)]))
          "userFeedback" (.vStr "x"))).2 = ["improve-lyrics"])
    ∧ ((firstActionInput (BriefAgent.execute
        ["generate-song-structure", "evaluate-lyrics", "improve-lyrics"]
        (stSet (stSet (stSet stEmpty "songStructure" (.vObj [("title", .vStr "t")]))
          "evaluation" (.vObj [("needsImprovement", .vBool true), ("quality", .vNum 70)]))
          "userFeedback" (.vStr "x"))).2).field "userFeedback" = .vStr "x")
    ∧ (stGet (BriefAgent.execute
        ["generate-song-structure", "evaluate-lyrics", "improve-lyrics"]
        (stSet (stSet (stSet stEmpty "songStructure" (.vObj [("title", .vStr "t")]))
          "evaluation" (.vObj [("needsImprovement", .vBool true), ("quality", .vNum 70)]))
          "userFeedback" (.vStr "x"))).1 "iterationCount" = .vNum 1)
    ∧ (stGet (BriefAgent.execute
        ["generate-song-structure", "evaluate-lyrics", "improve-lyrics"]
        (stSet (stSet (stSet stEmpty "songStructure" (.vObj [("title", .vStr "t")]))
          "evaluation" (.vObj [("needsImprovement", .vBool true), ("quality", .vNum 70)]))
          "userFeedback" (.vStr "x"))).1 "userFeedback" = .vStr "x") := by
  refine ⟨rfl, rfl, rfl, rfl⟩

/-- C7 amended: whenever the improvement branch fires (evaluation and draft
present, `needsImprovement` truthy, `iterationCount < maxIterations`), the
emitted `improve-lyrics` action carries the current draft, the evaluation,
and any truthy pending `userFeedback` from state, and `iterationCount` is
incremented by one — but the policy leaves the `userFeedback` key in state
unchanged (it is not cleared; only the orchestrator's
`generate-song-structure` regeneration path ever clears it). -/
theorem improve_branch_amended (toolIds : List String) (st : St)
    (hev : (stGet st "evaluation").truthy = true)
    (hsong : (stGet st "songStructure").truthy = true)
    (hni : ((stGet st "evaluation").field "needsImprovement").truthy = true)
    (hit : (stGet st "iterationCount").asNumOr0 < BriefAgent.maxIterations)
    (htool : toolIds.contains "improve-lyrics" = true) :
    (BriefAgent.execute toolIds st).1
      = stSet st "iterationCount" (.vNum ((stGet st "iterationCount").asNumOr0 + 1))
    ∧ stGet (BriefAgent.execute toolIds st).1 "userFeedback" = stGet st "userFeedback"
    ∧ stepActionIds (BriefAgent.execute toolIds st).2 = ["improve-lyrics"]
    ∧ firstActionInput (BriefAgent.execute toolIds st).2
      = .vObj ([("songStructure", stGet st "songStructure"),
                ("evaluation", stGet st "evaluation")]
          ++ (if (stGet st "userFeedback").truthy
              then [("userFeedback", stGet st "userFeedback")] else [])) := by
  have hfb : stGet (stSet st "iterationCount"
      (.vNum ((stGet st "iterationCount").asNumOr0 + 1))) "userFeedback"
      = stGet st "userFeedback" :=
    stGet_stSet_ne st "iterationCount" "userFeedback" _ (by decide)
  have hmem : "improve-lyrics" ∈ toolIds := by simpa using htool
  refine ⟨?_, ?_, ?_, ?_⟩ <;>
    simp [BriefAgent.execute, hev, hsong, hni, hit, hmem, hfb,
          stepActionIds, firstActionInput]

/-- Witness for C7 amended at the counterexample state. -/
theorem improve_branch_amended_witness :
    stGet (BriefAgent.execute
        ["generate-song-structure", "evaluate-lyrics", "improve-lyrics"]
        (stSet (stSet (stSet stEmpty "songStructure" (.vObj [("title", .vStr "t")]))
          "evaluation" (.vObj [("needsImprovement", .vBool true), ("quality", .vNum 70)]))
          "userFeedback" (.vStr "x"))).1 "userFeedback"
      = stGet (stSet (stSet (stSet stEmpty "songStructure" (.vObj [("title", .vStr "t")]))
          "evaluation" (.vObj [("needsImprovement", .vBool true), ("quality", .vNum 70)]))
          "userFeedback" (.vStr "x")) "userFeedback" := by
  exact (improve_branch_amended
    ["generate-song-structure", "evaluate-lyrics", "improve-lyrics"]
    (stSet (stSet (stSet stEmpty "songStructure" (.vObj [("title", .vStr "t")]))
      "evaluation" (.vObj [("needsImprovement", .vBool true), ("quality", .vNum 70)]))
      "userFeedback" (.vStr "x"))
    rfl rfl rfl (by decide) (by decide)).2.1
/-! ## C3 — monotonic iteration count -/

/-- Each BriefAgent.execute call leaves `iterationCount` unchanged, or
increments it by exactly one — and the increment happens only when a truthy
evaluation with truthy `needsImprovement` is present and the counter is
below the policy budget. -/
theorem briefAgent_iteration_step (toolIds : List String) (st : St) :
    ((stGet (BriefAgent.execute toolIds st).1 "iterationCount").asNumOr0
        = (stGet st "iterationCount").asNumOr0)
    ∨ ((stGet (BriefAgent.execute toolIds st).1 "iterationCount").asNumOr0
        = (stGet st "iterationCount").asNumOr0 + 1
       ∧ (stGet st "evaluation").truthy = true
       ∧ ((stGet st "evaluation").field "needsImprovement").truthy = true
       ∧ (stGet st "iterationCount").asNumOr0 < BriefAgent.maxIterations) := by
  unfold BriefAgent.execute
  dsimp only
  split
  · left
    split
    · rfl
    · split <;> · rw [stGet_stSet_ne _ _ _ _ (by decide)]
  · split
    · left
      split <;> rfl
    · split
      · next h3 =>
        right
        simp only [Bool.and_eq_true, decide_eq_true_eq] at h3
        refine ⟨?_, h3.1.1.1, h3.1.2, h3.2⟩
        split <;> simp [stGet_stSet_same, Value.asNumOr0]
      · left
        rfl

namespace Orchestrator

theorem storeToolOutput_iter (toolId : String) (output : Value) (st : St) :
    stGet (storeToolOutput toolId output st) "iterationCount"
      = stGet st "iterationCount" := by
  unfold storeToolOutput
  split_ifs <;> simp [stGet, stSet]

theorem execToolCall_pres (ctx : OrchCtx) (rs : RunSt) (toolId : String)
    (input : Value) :
    (execToolCall ctx rs toolId input).1.st = rs.st
    ∧ (execToolCall ctx rs toolId input).1.steps = rs.steps
    ∧ (execToolCall ctx rs toolId input).1.toolCalls = rs.toolCalls := by
  unfold execToolCall
  split <;> exact ⟨rfl, rfl, rfl⟩

theorem execToolCall_pres_eq {ctx : OrchCtx} {rs : RunSt} {toolId : String}
    {input : Value} {rs2 : RunSt} {res : Except JsErr Value}
    (h : execToolCall ctx rs toolId input = (rs2, res)) :
    rs2.st = rs.st ∧ rs2.steps = rs.steps ∧ rs2.toolCalls = rs.toolCalls := by
  have hp := execToolCall_pres ctx rs toolId input
  rw [h] at hp
  exact hp

theorem gatePhase_pres (ctx : OrchCtx) (rs : RunSt) (a : ActionM) (output : Value) :
    stGet (gateOutSt (gatePhase ctx rs a output)).st "iterationCount"
      = stGet rs.st "iterationCount"
    ∧ (gateOutSt (gatePhase ctx rs a output)).steps = rs.steps
    ∧ (gateOutSt (gatePhase ctx rs a output)).toolCalls = rs.toolCalls := by
  unfold gatePhase
  dsimp only
  split
  · exact ⟨rfl, rfl, rfl⟩
  · split
    · split
      · exact ⟨rfl, rfl, rfl⟩
      · split
        · exact ⟨rfl, rfl, rfl⟩
        · split
          · exact ⟨rfl, rfl, rfl⟩
          · split
            · exact ⟨rfl, rfl, rfl⟩
            · split
              · next rs2 e heq =>
                have hp := execToolCall_pres_eq heq
                refine ⟨?_, hp.2.1, hp.2.2⟩
                simp only [gateOutSt]
                rw [hp.1]
              · next rs2 output2 heq =>
                have hp := execToolCall_pres_eq heq
                split <;> split <;> refine ⟨?_, ?_, ?_⟩ <;> simp only [gateOutSt] <;>
                  first
                    | exact hp.2.1
                    | exact hp.2.2
                    | rw [stGet_stSet_ne _ _ _ _ (by decide), hp.1]
                    | rw [hp.1]
          · split
            · exact ⟨rfl, rfl, rfl⟩
            · exact ⟨rfl, rfl, rfl⟩
    · exact ⟨rfl, rfl, rfl⟩

@[simp] theorem withTrace_st (rs : RunSt) (e : Ev) : (withTrace rs e).st = rs.st := rfl

@[simp] theorem withTrace_steps (rs : RunSt) (e : Ev) :
    (withTrace rs e).steps = rs.steps := rfl

@[simp] theorem withTrace_toolCalls (rs : RunSt) (e : Ev) :
    (withTrace rs e).toolCalls = rs.toolCalls := rfl

@[simp] theorem observe_fst_st (rs : RunSt) (toolId : String) :
    (observe rs toolId).1.st = rs.st := rfl

@[simp] theorem observe_fst_steps (rs : RunSt) (toolId : String) :
    (observe rs toolId).1.steps = rs.steps := rfl

@[simp] theorem observe_fst_toolCalls (rs : RunSt) (toolId : String) :
    (observe rs toolId).1.toolCalls = rs.toolCalls := rfl

theorem gatePhase_pres_eq_err {ctx : OrchCtx} {rs : RunSt} {a : ActionM}
    {output : Value} {e : JsErr} {rs2 : RunSt}
    (h : gatePhase ctx rs a output = .error (e, rs2)) :
    stGet rs2.st "iterationCount" = stGet rs.st "iterationCount"
    ∧ rs2.steps = rs.steps ∧ rs2.toolCalls = rs.toolCalls := by
  have hp := gatePhase_pres ctx rs a output
  rw [h] at hp
  exact hp

theorem gatePhase_pres_eq_ok {ctx : OrchCtx} {rs : RunSt} {a : ActionM}
    {output : Value} {rs2 : RunSt} {q : RunResult ⊕ Value}
    (h : gatePhase ctx rs a output = .ok (rs2, q)) :
    stGet rs2.st "iterationCount" = stGet rs.st "iterationCount"
    ∧ rs2.steps = rs.steps ∧ rs2.toolCalls = rs.toolCalls := by
  have hp := gatePhase_pres ctx rs a output
  rw [h] at hp
  exact hp

theorem tryBody_pres (ctx : OrchCtx) (rs : RunSt) (obsAcc : List Observation)
    (a : ActionM) :
    stGet (tryOutSt (tryBody ctx rs obsAcc a)).st "iterationCount"
      = stGet rs.st "iterationCount"
    ∧ (tryOutSt (tryBody ctx rs obsAcc a)).steps = rs.steps
    ∧ (tryOutSt (tryBody ctx rs obsAcc a)).toolCalls ≤ rs.toolCalls + 1 := by
  unfold tryBody
  dsimp only
  split
  · split
    · exact ⟨rfl, rfl, Nat.le_succ _⟩
    · split
      · next rs2 e heq =>
        have hp := execToolCall_pres_eq heq
        refine ⟨?_, ?_, ?_⟩ <;> simp only [tryOutSt]
        · rw [hp.1]; simp
        · rw [hp.2.1]; simp
        · rw [hp.2.2]; simp [Nat.le_succ]
      · next rs2 output heq =>
        have hp := execToolCall_pres_eq heq
        have hst2 : stGet rs2.st "iterationCount" = stGet rs.st "iterationCount" := by
          rw [hp.1]; simp
        have hsteps2 : rs2.steps = rs.steps := by rw [hp.2.1]; simp
        have htc2 : rs2.toolCalls = rs.toolCalls := by rw [hp.2.2]; simp
        split
        · next e rs3 heq2 =>
          have hg := gatePhase_pres_eq_err heq2
          exact ⟨by simp only [tryOutSt]; rw [hg.1, hst2],
                 by simp only [tryOutSt]; rw [hg.2.1, hsteps2],
                 by simp only [tryOutSt]; rw [hg.2.2, htc2]; exact Nat.le_succ _⟩
        · next rs3 r heq2 =>
          have hg := gatePhase_pres_eq_ok heq2
          exact ⟨by simp only [tryOutSt]; rw [hg.1, hst2],
                 by simp only [tryOutSt]; rw [hg.2.1, hsteps2],
                 by simp only [tryOutSt]; rw [hg.2.2, htc2]; exact Nat.le_succ _⟩
        · next rs3 output2 heq2 =>
          have hg := gatePhase_pres_eq_ok heq2
          have hst5 : stGet (storeToolOutput a.toolId output2 (withTrace rs3
              { type := .tool_call, toolId := some a.toolId }).st) "iterationCount"
              = stGet rs.st "iterationCount" := by
            rw [storeToolOutput_iter]
            simp only [withTrace_st]
            rw [hg.1, hst2]
          split
          · next e =>
            exact ⟨hst5,
                   by simp only [tryOutSt, withTrace_steps]; rw [hg.2.1, hsteps2],
                   by simp only [tryOutSt, withTrace_toolCalls]
                      rw [hg.2.2, htc2]; exact Nat.le_succ _⟩
          · next =>
            split
            · next e =>
              refine ⟨?_, ?_, ?_⟩ <;>
                simp only [tryOutSt, observe_fst_st, observe_fst_steps,
                           observe_fst_toolCalls, withTrace_st, withTrace_steps,
                           withTrace_toolCalls]
              · exact hst5
              · rw [hg.2.1, hsteps2]
              · rw [hg.2.2, htc2]
            · next =>
              refine ⟨?_, ?_, ?_⟩ <;>
                simp only [tryOutSt, observe_fst_st, observe_fst_steps,
                           observe_fst_toolCalls, withTrace_st, withTrace_steps,
                           withTrace_toolCalls]
              · exact hst5
              · rw [hg.2.1, hsteps2]
              · rw [hg.2.2, htc2]
  · exact ⟨rfl, rfl, Nat.le_succ _⟩

@[simp] theorem tryOutSt_ok (val : RunSt × List Observation × Option RunResult) :
    tryOutSt (.ok val) = val.1 := rfl

@[simp] theorem tryOutSt_err (val : JsErr × RunSt × List Observation) :
    tryOutSt (.error val) = val.2.1 := rfl

@[simp] theorem actOutSt_ok (val : RunSt × List Observation × Option RunResult) :
    actOutSt (.ok val) = val.1 := rfl

@[simp] theorem actOutSt_err (val : JsErr × RunSt) :
    actOutSt (.error val) = val.2 := rfl

theorem tryBody_pres_eq {ctx : OrchCtx} {rs : RunSt} {obsAcc : List Observation}
    {a : ActionM} {out : Except (JsErr × RunSt × List Observation)
      (RunSt × List Observation × Option RunResult)}
    (h : tryBody ctx rs obsAcc a = out) :
    stGet (tryOutSt out).st "iterationCount" = stGet rs.st "iterationCount"
    ∧ (tryOutSt out).steps = rs.steps
    ∧ (tryOutSt out).toolCalls ≤ rs.toolCalls + 1 := by
  have hp := tryBody_pres ctx rs obsAcc a
  rw [h] at hp
  exact hp

theorem processAction_pres (ctx : OrchCtx) (rs : RunSt)
    (obsAcc : List Observation) (a : ActionM) :
    stGet (actOutSt (processAction ctx rs obsAcc a)).st "iterationCount"
      = stGet rs.st "iterationCount"
    ∧ (actOutSt (processAction ctx rs obsAcc a)).steps = rs.steps
    ∧ (rs.toolCalls ≤ ctx.cfg.maxToolCalls →
        (actOutSt (processAction ctx rs obsAcc a)).toolCalls ≤ ctx.cfg.maxToolCalls) := by
  unfold processAction
  dsimp only
  split
  · split
    · exact ⟨rfl, rfl, fun h => h⟩
    · exact ⟨rfl, rfl, fun h => h⟩
  · next hguard =>
    have hlt : rs.toolCalls < ctx.cfg.maxToolCalls := Nat.lt_of_not_le hguard
    split
    · exact ⟨rfl, rfl, fun h => h⟩
    · split
      · next val heq =>
        have ht := tryBody_pres_eq heq
        exact ⟨ht.1, ht.2.1, fun _ => by
          have := ht.2.2
          simp only [tryOutSt_ok, actOutSt_ok] at this ⊢
          omega⟩
      · next e rs1 obs1 heq =>
        have ht := tryBody_pres_eq heq
        refine ⟨?_, ?_, fun _ => ?_⟩ <;>
          simp only [actOutSt, withTrace_st, withTrace_steps, withTrace_toolCalls]
        · exact ht.1
        · exact ht.2.1
        · have := ht.2.2
          simp only [tryOutSt_err] at this
          omega

theorem processAction_pres_eq {ctx : OrchCtx} {rs : RunSt}
    {obsAcc : List Observation} {a : ActionM}
    {out : Except (JsErr × RunSt) (RunSt × List Observation × Option RunResult)}
    (h : processAction ctx rs obsAcc a = out) :
    stGet (actOutSt out).st "iterationCount" = stGet rs.st "iterationCount"
    ∧ (actOutSt out).steps = rs.steps
    ∧ (rs.toolCalls ≤ ctx.cfg.maxToolCalls →
        (actOutSt out).toolCalls ≤ ctx.cfg.maxToolCalls) := by
  have hp := processAction_pres ctx rs obsAcc a
  rw [h] at hp
  exact hp

theorem processActions_pres (ctx : OrchCtx) (acts : List ActionM) :
    ∀ (rs : RunSt) (obsAcc : List Observation),
    stGet (actOutSt (processActions ctx rs obsAcc acts)).st "iterationCount"
      = stGet rs.st "iterationCount"
    ∧ (actOutSt (processActions ctx rs obsAcc acts)).steps = rs.steps
    ∧ (rs.toolCalls ≤ ctx.cfg.maxToolCalls →
        (actOutSt (processActions ctx rs obsAcc acts)).toolCalls
          ≤ ctx.cfg.maxToolCalls) := by
  induction acts with
  | nil => exact fun rs obsAcc => ⟨rfl, rfl, fun h => h⟩
  | cons a rest ih =>
    intro rs obsAcc
    simp only [processActions]
    split
    · next er heq =>
      have hp := processAction_pres_eq heq
      exact hp
    · next rs1 obs1 r heq =>
      have hp := processAction_pres_eq heq
      exact hp
    · next rs1 obs1 heq =>
      have hp := processAction_pres_eq heq
      have hrest := ih rs1 obs1
      refine ⟨?_, ?_, fun h => ?_⟩
      · rw [hrest.1]
        exact hp.1
      · rw [hrest.2.1]
        exact hp.2.1
      · exact hrest.2.2 (hp.2.2 h)

@[simp] theorem reflect_fst_st (ctx : OrchCtx) (rs : RunSt) :
    (reflect ctx rs).1.st = rs.st := by
  unfold reflect
  dsimp only
  split_ifs <;> rfl

@[simp] theorem reflect_fst_steps (ctx : OrchCtx) (rs : RunSt) :
    (reflect ctx rs).1.steps = rs.steps := by
  unfold reflect
  dsimp only
  split_ifs <;> rfl

@[simp] theorem reflect_fst_toolCalls (ctx : OrchCtx) (rs : RunSt) :
    (reflect ctx rs).1.toolCalls = rs.toolCalls := by
  unfold reflect
  dsimp only
  split_ifs <;> rfl

theorem processActions_pres_eq {ctx : OrchCtx} {acts : List ActionM} {rs : RunSt}
    {obsAcc : List Observation}
    {out : Except (JsErr × RunSt) (RunSt × List Observation × Option RunResult)}
    (h : processActions ctx rs obsAcc acts = out) :
    stGet (actOutSt out).st "iterationCount" = stGet rs.st "iterationCount"
    ∧ (actOutSt out).steps = rs.steps
    ∧ (rs.toolCalls ≤ ctx.cfg.maxToolCalls →
        (actOutSt out).toolCalls ≤ ctx.cfg.maxToolCalls) := by
  have hp := processActions_pres ctx acts rs obsAcc
  rw [h] at hp
  exact hp

@[simp] theorem stepOutSt_err (val : JsErr × RunSt) :
    stepOutSt (.error val) = val.2 := rfl

@[simp] theorem stepOutSt_ret (r : RunResult) (rs : RunSt) :
    stepOutSt (.ok (.ret r rs)) = rs := rfl

@[simp] theorem stepOutSt_brk (rs : RunSt) : stepOutSt (.ok (.brk rs)) = rs := rfl

@[simp] theorem stepOutSt_cont (rs : RunSt) : stepOutSt (.ok (.cont rs)) = rs := rfl

theorem stepOnce_pres (ctx : OrchCtx) (rs : RunSt) :
    (stepOutSt (stepOnce ctx rs)).steps = rs.steps + 1
    ∧ (rs.toolCalls ≤ ctx.cfg.maxToolCalls →
        (stepOutSt (stepOnce ctx rs)).toolCalls ≤ ctx.cfg.maxToolCalls)
    ∧ ∀ c : Nat,
        (∀ st, (stGet st "iterationCount").asNumOr0 ≤ c →
          (stGet ((ctx.agent.execute st).1) "iterationCount").asNumOr0 ≤ c) →
        (stGet rs.st "iterationCount").asNumOr0 ≤ c →
        (stGet (stepOutSt (stepOnce ctx rs)).st "iterationCount").asNumOr0 ≤ c := by
  unfold stepOnce
  dsimp only
  split
  · exact ⟨rfl, fun h => h, fun c hag hle => hle⟩
  · split
    · exact ⟨rfl, fun h => h, fun c hag hle => hag _ hle⟩
    · next agentStep heq =>
      split
      · exact ⟨rfl, fun h => h, fun c hag hle => hag _ hle⟩
      · split
        · exact ⟨rfl, fun h => h, fun c hag hle => hag _ hle⟩
        · split
          · next er heq2 =>
            have hp := processActions_pres_eq heq2
            simp only [actOutSt_err, withTrace_st, withTrace_steps,
                       withTrace_toolCalls] at hp
            refine ⟨?_, fun h => ?_, fun c hag hle => ?_⟩ <;>
              simp only [stepOutSt_err]
            · exact hp.2.1
            · exact hp.2.2 h
            · rw [hp.1]; exact hag _ hle
          · next rs3 obs r heq2 =>
            have hp := processActions_pres_eq heq2
            simp only [actOutSt_ok, withTrace_st, withTrace_steps,
                       withTrace_toolCalls] at hp
            refine ⟨?_, fun h => ?_, fun c hag hle => ?_⟩ <;>
              simp only [stepOutSt_ret]
            · exact hp.2.1
            · exact hp.2.2 h
            · rw [hp.1]; exact hag _ hle
          · next rs3 obs heq2 =>
            have hp := processActions_pres_eq heq2
            simp only [actOutSt_ok, withTrace_st, withTrace_steps,
                       withTrace_toolCalls] at hp
            split
            · refine ⟨?_, fun h => ?_, fun c hag hle => ?_⟩ <;>
                simp only [stepOutSt_err]
              · exact hp.2.1
              · exact hp.2.2 h
              · rw [hp.1]; exact hag _ hle
            · split
              · next e =>
                refine ⟨?_, fun h => ?_, fun c hag hle => ?_⟩ <;>
                  simp only [stepOutSt_err, reflect_fst_st, reflect_fst_steps,
                             reflect_fst_toolCalls]
                · rw [hp.2.1]
                · exact hp.2.2 h
                · rw [hp.1]; exact hag _ hle
              · split <;>
                · refine ⟨?_, fun h => ?_, fun c hag hle => ?_⟩ <;>
                    simp only [stepOutSt_brk, stepOutSt_cont, withTrace_st,
                               withTrace_steps, withTrace_toolCalls,
                               reflect_fst_st, reflect_fst_steps,
                               reflect_fst_toolCalls]
                  · rw [hp.2.1]
                  · exact hp.2.2 h
                  · rw [hp.1]; exact hag _ hle

@[simp] theorem loopOutSt_err (val : JsErr × RunSt) :
    loopOutSt (.error val) = val.2 := rfl

@[simp] theorem loopOutSt_ok (val : RunResult × RunSt) :
    loopOutSt (.ok val) = val.2 := rfl

theorem afterLoop_pres (ctx : OrchCtx) (rs : RunSt) :
    loopOutSt (afterLoop ctx rs) = rs := by
  unfold afterLoop
  split <;> rfl

theorem runLoop_pres (ctx : OrchCtx) (fuel : Nat) : ∀ (rs : RunSt),
    (rs.steps ≤ ctx.cfg.maxSteps →
      (loopOutSt (runLoop ctx fuel rs)).steps ≤ ctx.cfg.maxSteps)
    ∧ (rs.toolCalls ≤ ctx.cfg.maxToolCalls →
      (loopOutSt (runLoop ctx fuel rs)).toolCalls ≤ ctx.cfg.maxToolCalls)
    ∧ ∀ c : Nat,
        (∀ st, (stGet st "iterationCount").asNumOr0 ≤ c →
          (stGet ((ctx.agent.execute st).1) "iterationCount").asNumOr0 ≤ c) →
        (stGet rs.st "iterationCount").asNumOr0 ≤ c →
        (stGet (loopOutSt (runLoop ctx fuel rs)).st "iterationCount").asNumOr0 ≤ c := by
  induction fuel with
  | zero =>
    intro rs
    simp only [runLoop, afterLoop_pres]
    exact ⟨fun h => h, fun h => h, fun c hag hle => hle⟩
  | succ f ih =>
    intro rs
    simp only [runLoop]
    split
    · next hlt =>
      split
      · next er heq =>
        have hs := stepOnce_pres ctx rs
        rw [heq] at hs
        simp only [stepOutSt_err] at hs
        refine ⟨fun h => ?_, fun h => ?_, fun c hag hle => ?_⟩ <;>
          simp only [loopOutSt_err]
        · rw [hs.1]; omega
        · exact hs.2.1 h
        · exact hs.2.2 c hag hle
      · next r rsAt heq =>
        have hs := stepOnce_pres ctx rs
        rw [heq] at hs
        simp only [stepOutSt_ret] at hs
        refine ⟨fun h => ?_, fun h => ?_, fun c hag hle => ?_⟩ <;>
          simp only [loopOutSt_ok]
        · rw [hs.1]; omega
        · exact hs.2.1 h
        · exact hs.2.2 c hag hle
      · next rs1 heq =>
        have hs := stepOnce_pres ctx rs
        rw [heq] at hs
        simp only [stepOutSt_brk] at hs
        rw [afterLoop_pres]
        refine ⟨fun h => ?_, fun h => ?_, fun c hag hle => ?_⟩
        · rw [hs.1]; omega
        · exact hs.2.1 h
        · exact hs.2.2 c hag hle
      · next rs1 heq =>
        have hs := stepOnce_pres ctx rs
        rw [heq] at hs
        simp only [stepOutSt_cont] at hs
        have hr := ih rs1
        refine ⟨fun h => ?_, fun h => ?_, fun c hag hle => ?_⟩
        · exact hr.1 (by rw [hs.1]; omega)
        · exact hr.2.1 (hs.2.1 h)
        · exact hr.2.2 c hag (hs.2.2 c hag hle)
    · simp only [afterLoop_pres]
      exact ⟨fun h => h, fun h => h, fun c hag hle => hle⟩

theorem runCatch_pres (ctx : OrchCtx) (e : JsErr) (rs : RunSt) :
    (runCatch ctx e rs).1.st = rs.st
    ∧ (runCatch ctx e rs).1.steps = rs.steps
    ∧ (runCatch ctx e rs).1.toolCalls = rs.toolCalls := by
  unfold runCatch
  dsimp only
  split <;> exact ⟨rfl, rfl, rfl⟩

end Orchestrator

/-! ## C1 — bounded work -/

/-- C1 amended: `Orchestrator.run` is a total function of its fuelled loop
(the model terminates by construction, mirroring the strictly increasing
step counter against the fixed `maxSteps` bound), and for every
configuration, agent, tool behaviour, gate and hook, the final step counter
(one increment per plan phase) never exceeds `maxSteps` and the guarded
tool-call counter (one increment per committed tool call) never exceeds
`maxToolCalls`. -/
theorem run_bounded_work (ctx : OrchCtx) (initialInput : Value) (st0 : St) :
    (Orchestrator.run ctx initialInput st0).1.steps ≤ ctx.cfg.maxSteps
    ∧ (Orchestrator.run ctx initialInput st0).1.toolCalls
        ≤ ctx.cfg.maxToolCalls := by
  unfold Orchestrator.run
  dsimp only
  split
  · next e heq =>
    have hc := Orchestrator.runCatch_pres ctx e
      { st := stSet st0 "initialInput" initialInput, trace := [], steps := 0,
        toolCalls := 0, invLog := [], gateLog := [] }
    exact ⟨by rw [hc.2.1]; exact Nat.zero_le _, by rw [hc.2.2]; exact Nat.zero_le _⟩
  · split
    · next e rsx heq2 =>
      have hl := Orchestrator.runLoop_pres ctx ctx.cfg.maxSteps
        { st := stSet st0 "initialInput" initialInput, trace := [], steps := 0,
          toolCalls := 0, invLog := [], gateLog := [] }
      rw [heq2] at hl
      simp only [Orchestrator.loopOutSt_err] at hl
      have hc := Orchestrator.runCatch_pres ctx e rsx
      exact ⟨by rw [hc.2.1]; exact hl.1 (Nat.zero_le _),
             by rw [hc.2.2]; exact hl.2.1 (Nat.zero_le _)⟩
    · next r rsx heq2 =>
      have hl := Orchestrator.runLoop_pres ctx ctx.cfg.maxSteps
        { st := stSet st0 "initialInput" initialInput, trace := [], steps := 0,
          toolCalls := 0, invLog := [], gateLog := [] }
      rw [heq2] at hl
      simp only [Orchestrator.loopOutSt_ok] at hl
      exact ⟨hl.1 (Nat.zero_le _), hl.2.1 (Nat.zero_le _)⟩

theorem run_iter_pres (ctx : OrchCtx) (initialInput : Value) (st0 : St) (c : Nat)
    (hag : ∀ st, (stGet st "iterationCount").asNumOr0 ≤ c →
      (stGet ((ctx.agent.execute st).1) "iterationCount").asNumOr0 ≤ c)
    (h0 : (stGet st0 "iterationCount").asNumOr0 ≤ c) :
    (stGet (Orchestrator.run ctx initialInput st0).1.st "iterationCount").asNumOr0
      ≤ c := by
  have h0r : (stGet (stSet st0 "initialInput" initialInput) "iterationCount").asNumOr0
      ≤ c := by
    rw [stGet_stSet_ne _ _ _ _ (by decide)]
    exact h0
  unfold Orchestrator.run
  dsimp only
  split
  · next e heq =>
    have hc := Orchestrator.runCatch_pres ctx e
      { st := stSet st0 "initialInput" initialInput, trace := [], steps := 0,
        toolCalls := 0, invLog := [], gateLog := [] }
    rw [hc.1]
    exact h0r
  · split
    · next e rsx heq2 =>
      have hl := Orchestrator.runLoop_pres ctx ctx.cfg.maxSteps
        { st := stSet st0 "initialInput" initialInput, trace := [], steps := 0,
          toolCalls := 0, invLog := [], gateLog := [] }
      rw [heq2] at hl
      simp only [Orchestrator.loopOutSt_err] at hl
      have hc := Orchestrator.runCatch_pres ctx e rsx
      rw [hc.1]
      exact hl.2.2 c hag h0r
    · next r rsx heq2 =>
      have hl := Orchestrator.runLoop_pres ctx ctx.cfg.maxSteps
        { st := stSet st0 "initialInput" initialInput, trace := [], steps := 0,
          toolCalls := 0, invLog := [], gateLog := [] }
      rw [heq2] at hl
      simp only [Orchestrator.loopOutSt_ok] at hl
      exact hl.2.2 c hag h0r

/-- C3: in a run of the orchestrator driving the BriefAgent policy, the
`iterationCount` state key is modified only by the policy's improvement
branch — each policy call leaves it unchanged or increments it by exactly 1,
and the increment happens only when a truthy evaluation with
`needsImprovement` set is present and the counter is below `maxIterations` —
and consequently, for every tool behaviour, gate and hook, a run whose
initial store carries `iterationCount ≤ maxIterations` (in particular the
fresh store, where it is absent and reads 0) ends with
`iterationCount ≤ maxIterations`. -/
theorem iteration_count_monotonic (cfg : OrchConfig) (toolIds : List String)
    (toolExec : Nat → String → Value → Except JsErr Value)
    (gate : Option (Nat → String → Value → Except JsErr ApprovalData))
    (hook : Option (ProgressUpdate → Except JsErr Unit))
    (initialInput : Value) (st0 : St)
    (h0 : (stGet st0 "iterationCount").asNumOr0 ≤ BriefAgent.maxIterations) :
    (∀ st : St,
      ((stGet (BriefAgent.execute toolIds st).1 "iterationCount").asNumOr0
          = (stGet st "iterationCount").asNumOr0)
      ∨ ((stGet (BriefAgent.execute toolIds st).1 "iterationCount").asNumOr0
          = (stGet st "iterationCount").asNumOr0 + 1
         ∧ (stGet st "evaluation").truthy = true
         ∧ ((stGet st "evaluation").field "needsImprovement").truthy = true
         ∧ (stGet st "iterationCount").asNumOr0 < BriefAgent.maxIterations))
    ∧ (stGet (Orchestrator.run
        { cfg := cfg,
          agent := { id := "brief-agent", toolIds := toolIds,
                     execute := BriefAgent.execute toolIds },
          toolExec := toolExec, gate := gate, hook := hook }
        initialInput st0).1.st "iterationCount").asNumOr0
        ≤ BriefAgent.maxIterations := by
  refine ⟨fun st => briefAgent_iteration_step toolIds st, ?_⟩
  refine run_iter_pres _ _ _ _ ?_ h0
  intro st hle
  rcases briefAgent_iteration_step toolIds st with h | h
  · rw [h]; exact hle
  · rw [h.1]
    have := h.2.2.2
    omega

/-- Witness for C3 at a concrete empty-store run. -/
theorem iteration_count_monotonic_witness :
    (stGet (Orchestrator.run
        { cfg := { maxSteps := 2, maxToolCalls := 2, allowedTools := [],
                   maxIterations := 3 },
          agent := { id := "brief-agent", toolIds := [],
                     execute := BriefAgent.execute [] },
          toolExec := fun _ _ _ => .error (.jsError "no tool"),
          gate := none, hook := none }
        (.vStr "in") stEmpty).1.st "iterationCount").asNumOr0
        ≤ BriefAgent.maxIterations := by
  exact (iteration_count_monotonic
    { maxSteps := 2, maxToolCalls := 2, allowedTools := [], maxIterations := 3 }
    [] (fun _ _ _ => .error (.jsError "no tool")) none none (.vStr "in") stEmpty
    (by decide)).2

/-- C1 counterexample: with `maxToolCalls = 1` and a regenerate-with-feedback
gate answer, one committed tool call performs two successful tool
invocations, so the run (which completes successfully and respects the
committed-call counter bound) makes more successful tool invocations than
`maxToolCalls` — refuting the claim that at most `maxToolCalls` successful
tool invocations occur. -/
theorem run_invocation_count_counterexample :
    regenCtx.cfg.maxToolCalls = 1
    ∧ ((Orchestrator.run regenCtx (.vStr "in") stEmpty).1.invLog.filter
        (fun r => r.ok)).length = 2
    ∧ runSuccess (Orchestrator.run regenCtx (.vStr "in") stEmpty).2 = some true
    ∧ (Orchestrator.run regenCtx (.vStr "in") stEmpty).1.toolCalls = 1
    ∧ 1 < ((Orchestrator.run regenCtx (.vStr "in") stEmpty).1.invLog.filter
        (fun r => r.ok)).length := by
  exact ⟨rfl, rfl, rfl, rfl, by decide⟩

/-- C2 counterexample: the policy emits an allow-listed tool id with no
matching registered tool; the run records the failed observation and the
`Tool improve-lyrics not found` trace error, continues to the next plan
phase, and returns success — it does not fail the whole run as claimed. -/
theorem missing_tool_counterexample :
    runSuccess (Orchestrator.run missingToolCtx (.vStr "in") stEmpty).2 = some true
    ∧ ((Orchestrator.run missingToolCtx (.vStr "in") stEmpty).1.trace.any
        (fun e2 => e2.error == some "Tool improve-lyrics not found")) = true
    ∧ (Orchestrator.run missingToolCtx (.vStr "in") stEmpty).1.toolCalls = 0
    ∧ (Orchestrator.run missingToolCtx (.vStr "in") stEmpty).1.steps = 2 := by
  exact ⟨rfl, rfl, rfl, rfl⟩

/-- C8: the progress hook is not guarded by the orchestrator. With a hook
that throws on every invocation, the very same run that completes with
`success = true` under no hook instead escapes `run` as an unhandled
rejection (the outer catch itself calls the hook again). The hook is
therefore not purely observational: its failure aborts the run. -/
theorem progress_hook_throw_aborts_run :
    (Orchestrator.run hookThrowCtx (.vStr "in") stEmpty).2
      = .error (.jsError "hook failure")
    ∧ runSuccess (Orchestrator.run hookNoneCtx (.vStr "in") stEmpty).2
      = some true := by
  exact ⟨rfl, rfl⟩

/-- C5: when the gate is configured and answers `reject` for a
content-producing tool call, the loop returns immediately — no further plan
phase runs — with `success = false` and the rejection error, and the final
state is exactly the post-plan state `st1`: the rejected output is never
committed under the tool's state key (storeToolOutput is never reached). -/
theorem approval_reject_fails_run (ctx : OrchCtx) (rs : RunSt) (fuel : Nat)
    (g : Nat → String → Value → Except JsErr ApprovalData)
    (a : ActionM) (st1 : St) (step : AgentStep) (out : Value) (fb : Option String)
    (hhook : ctx.hook = none)
    (hgate : ctx.gate = some g)
    (hsteps : rs.steps < ctx.cfg.maxSteps)
    (hplan : ctx.agent.execute rs.st = (st1, .ok step))
    (hact : step.actions = [a])
    (hcontent : Orchestrator.contentProducing a.toolId = true)
    (hallow : ctx.cfg.allowedTools.contains a.toolId = true)
    (hreg : ctx.agent.toolIds.contains a.toolId = true)
    (hguard : rs.toolCalls < ctx.cfg.maxToolCalls)
    (hexec : ctx.toolExec rs.invLog.length a.toolId a.input = .ok out)
    (hgres : g rs.gateLog.length a.toolId out = .ok ⟨.reject, fb⟩) :
    (loopResult (Orchestrator.runLoop ctx (fuel + 1) rs)).map (fun r => r.success)
      = some false
    ∧ (loopResult (Orchestrator.runLoop ctx (fuel + 1) rs)).map (fun r => r.error)
      = some (some "Content generation rejected by human-in-the-loop")
    ∧ (loopResult (Orchestrator.runLoop ctx (fuel + 1) rs)).map
        (fun r => r.finalState) = some st1
    ∧ (Orchestrator.loopOutSt (Orchestrator.runLoop ctx (fuel + 1) rs)).st = st1 := by
  have hnle : ¬ ctx.cfg.maxToolCalls ≤ rs.toolCalls := Nat.not_le.mpr hguard
  have hallow2 : a.toolId ∈ ctx.cfg.allowedTools := by simpa using hallow
  have hreg2 : a.toolId ∈ ctx.agent.toolIds := by simpa using hreg
  refine ⟨?_, ?_, ?_, ?_⟩ <;>
    simp [Orchestrator.runLoop, hsteps, Orchestrator.stepOnce, Orchestrator.callHook,
          hhook, hplan, hact, Orchestrator.processActions, Orchestrator.processAction,
          hnle, hallow2, Orchestrator.tryBody, hreg2, Orchestrator.execToolCall,
          Orchestrator.withTrace, hexec, Orchestrator.gatePhase, hgate, hcontent,
          hgres, loopResult, Orchestrator.loopOutSt]

/-- Witness for C5 at the concrete always-reject context. -/
theorem approval_reject_fails_run_witness :
    (loopResult (Orchestrator.runLoop rejectCtx (4 + 1)
        { st := stSet stEmpty "initialInput" (.vStr "in"), trace := [], steps := 0,
          toolCalls := 0, invLog := [], gateLog := [] })).map (fun r => r.success)
      = some false := by
  exact (approval_reject_fails_run rejectCtx
    { st := stSet stEmpty "initialInput" (.vStr "in"), trace := [], steps := 0,
      toolCalls := 0, invLog := [], gateLog := [] }
    4 (fun _ _ _ => .ok ⟨.reject, none⟩)
    ⟨"generate-song-structure", briefInputVal⟩
    (stSet stEmpty "initialInput" (.vStr "in"))
    { agentId := "brief-agent", planSteps := ["GenerateSongStructure"],
      planReasoning := "Initial song generation needed",
      actions := [⟨"generate-song-structure", briefInputVal⟩] }
    (.vObj [("title", .vStr "t")]) none
    rfl rfl (by decide) rfl rfl rfl (by decide) rfl (by decide) rfl rfl).1

/-- C6: when the gate answers `regenerate` with non-empty feedback for a
content-producing tool call, the same tool is invoked exactly one more time
with the feedback merged into the input (for `improve-lyrics`, literally the
original input plus a `userFeedback` field — last conjunct), the gate is
consulted exactly once for this action (the regenerated output gets no
second approval round), the second output is what is committed under the
tool's state key, and the loop continues. -/
theorem regenerate_single_roundtrip (ctx : OrchCtx) (rs : RunSt)
    (obsAcc : List Observation) (a : ActionM)
    (g : Nat → String → Value → Except JsErr ApprovalData)
    (out1 out2 : Value) (fb : String)
    (hhook : ctx.hook = none)
    (hgate : ctx.gate = some g)
    (hcontent : Orchestrator.contentProducing a.toolId = true)
    (hallow : ctx.cfg.allowedTools.contains a.toolId = true)
    (hreg : ctx.agent.toolIds.contains a.toolId = true)
    (hguard : rs.toolCalls < ctx.cfg.maxToolCalls)
    (hexec1 : ctx.toolExec rs.invLog.length a.toolId a.input = .ok out1)
    (hgres : g rs.gateLog.length a.toolId out1 = .ok ⟨.regenerate, some fb⟩)
    (hfb : fb ≠ "")
    (hexec2 : ctx.toolExec (rs.invLog.length + 1) a.toolId
        (Orchestrator.regenInput a.toolId a.input fb) = .ok out2) :
    (Orchestrator.actOutSt (Orchestrator.processAction ctx rs obsAcc a)).invLog
      = rs.invLog ++ [⟨a.toolId, a.input, true⟩,
          ⟨a.toolId, Orchestrator.regenInput a.toolId a.input fb, true⟩]
    ∧ (Orchestrator.actOutSt (Orchestrator.processAction ctx rs obsAcc a)).gateLog
      = rs.gateLog ++ [(a.toolId, out1)]
    ∧ stGet (Orchestrator.actOutSt (Orchestrator.processAction ctx rs obsAcc a)).st
        (Orchestrator.getStateKeyForTool a.toolId) = out2
    ∧ actContinues (Orchestrator.processAction ctx rs obsAcc a) = true
    ∧ (∀ inp : Value, Orchestrator.regenInput "improve-lyrics" inp fb
        = inp.setField "userFeedback" (.vStr fb)) := by
  obtain ⟨tid, ainput⟩ := a
  have hnle : ¬ ctx.cfg.maxToolCalls ≤ rs.toolCalls := Nat.not_le.mpr hguard
  have hallow2 : tid ∈ ctx.cfg.allowedTools := by simpa using hallow
  have hreg2 : tid ∈ ctx.agent.toolIds := by simpa using hreg
  have hid : tid = "generate-song-structure" ∨ tid = "improve-lyrics" := by
    have := hcontent
    unfold Orchestrator.contentProducing at this
    rcases Bool.or_eq_true_iff.mp this with h | h
    · exact Or.inl (by simpa using h)
    · exact Or.inr (by simpa using h)
  have hfbt : Orchestrator.fbTruthy (some fb) = true := by
    simp [Orchestrator.fbTruthy, hfb]
  rcases hid with hid | hid <;> subst hid <;>
    refine ⟨?_, ?_, ?_, ?_, fun inp => rfl⟩ <;>
      simp [Orchestrator.processAction, hnle, hallow2, Orchestrator.tryBody, hreg2,
            Orchestrator.execToolCall, Orchestrator.withTrace, hexec1,
            Orchestrator.gatePhase, hgate, hgres, hfbt, hfb, hexec2,
            Orchestrator.storeToolOutput, Orchestrator.getStateKeyForTool,
            Orchestrator.observe, Orchestrator.callHook, hhook, actContinues,
            stGet, stSet, Orchestrator.contentProducing]

/-- Witness for C6 at the concrete regenerate-with-feedback context. -/
theorem regenerate_single_roundtrip_witness :
    (Orchestrator.actOutSt (Orchestrator.processAction regenCtx
        { st := stEmpty, trace := [], steps := 1, toolCalls := 0, invLog := [],
          gateLog := [] } [] ⟨"generate-song-structure", briefInputVal⟩)).gateLog
      = ([] : List (String × Value))
          ++ [("generate-song-structure", .vObj [("title", .vStr "t")])] := by
  exact (regenerate_single_roundtrip regenCtx
    { st := stEmpty, trace := [], steps := 1, toolCalls := 0, invLog := [],
      gateLog := [] }
    [] ⟨"generate-song-structure", briefInputVal⟩
    (fun _ _ _ => .ok ⟨.regenerate, some "shorter chorus"⟩)
    (.vObj [("title", .vStr "t")]) (.vObj [("title", .vStr "t")]) "shorter chorus"
    rfl rfl rfl rfl rfl (by decide) rfl rfl (by decide) rfl).2.1

/-- C2 amended: when the policy emits an action whose toolId is allow-listed
but matches no tool registered with the agent (and the tool-call budget is
not yet exhausted), the orchestrator does not fail the run: the thrown
`Tool <id> not found` error is caught by the per-action catch, which records
a failed tool_call trace event and a failed observation, leaves the state
store untouched, and lets the run continue (no fatal result). -/
theorem missing_tool_amended (ctx : OrchCtx) (rs : RunSt)
    (obsAcc : List Observation) (a : ActionM)
    (hguard : rs.toolCalls < ctx.cfg.maxToolCalls)
    (hallow : ctx.cfg.allowedTools.contains a.toolId = true)
    (hmiss : ctx.agent.toolIds.contains a.toolId = false) :
    Orchestrator.processAction ctx rs obsAcc a =
      .ok (Orchestrator.withTrace rs
             { type := .tool_call, toolId := some a.toolId,
               error := some ("Tool " ++ a.toolId ++ " not found") },
           obsAcc ++ [{ actionId := a.toolId, output := .vNull, success := false,
                        error := some ("Tool " ++ a.toolId ++ " not found") }],
           none) := by
  have hnle : ¬ ctx.cfg.maxToolCalls ≤ rs.toolCalls := Nat.not_le.mpr hguard
  have hallow2 : a.toolId ∈ ctx.cfg.allowedTools := by simpa using hallow
  have hmiss2 : ¬ (a.toolId ∈ ctx.agent.toolIds) := by simpa using hmiss
  simp [Orchestrator.processAction, hnle, hallow2, Orchestrator.tryBody, hmiss2,
        JsErr.message, Orchestrator.withTrace]

/-- Witness for C2 amended at the concrete missing-tool context. -/
theorem missing_tool_amended_witness :
    Orchestrator.processAction missingToolCtx
      { st := stEmpty, trace := [], steps := 1, toolCalls := 0, invLog := [],
        gateLog := [] } [] ⟨"improve-lyrics", .vNull⟩ =
      .ok (Orchestrator.withTrace
             { st := stEmpty, trace := [], steps := 1, toolCalls := 0, invLog := [],
               gateLog := [] }
             { type := .tool_call, toolId := some "improve-lyrics",
               error := some ("Tool " ++ "improve-lyrics" ++ " not found") },
           [] ++ [{ actionId := "improve-lyrics", output := .vNull, success := false,
                    error := some ("Tool " ++ "improve-lyrics" ++ " not found") }],
           none) := by
  exact missing_tool_amended missingToolCtx
    { st := stEmpty, trace := [], steps := 1, toolCalls := 0, invLog := [],
      gateLog := [] } [] ⟨"improve-lyrics", .vNull⟩ (by decide) rfl rfl
